import Mathlib

/-!
Verification of the trading-monitor engine.

Shallow embedding of the repository's core modules:
  - src/services/resampleService.ts  (intervalToMs, resampleCandles)
  - src/services/strategyEngine.ts   (evaluateStrategy and its helpers)
  - src/server/StrategyRunner.ts     (handleDataUpdate, handleManualOrder,
                                      initializeManualPosition)
  - src/server/DataEngine.ts         (StreamHandler.initialize,
                                      StreamHandler.processNewCandle)

Modelling conventions:
  - JavaScript numbers carrying prices, quantities and percentages are
    modelled as exact rationals; candle open times and millisecond widths
    are natural numbers (epoch milliseconds).
  - A JS value that may be `undefined` is an `Option`; the JS comparison
    semantics `undefined <= x = false` is modelled explicitly (jsLe, jsGe).
  - `new Date()` reads are injected as explicit parameters (dateKey, the
    ISO timestamp string, and the epoch-milliseconds clock).
  - The JS string field `quantity: qty.toString()` is kept as the rational
    itself; no claim depends on the decimal rendering.
  - A JS array hole / missing boolean reads as `false`, matching the falsy
    read in the source.
-/

namespace TradingMonitor

/- Batteries marks the rational field operations irreducible; concrete
evaluation of the embedded code in witnesses goes through the kernel, so
their definitional unfolding is restored for this file. -/
set_option allowUnsafeReducibility true
attribute [local semireducible] Rat.add Rat.mul Rat.sub Rat.inv Rat.ofScientific

inductive Direction where
  | LONG
  | SHORT
  | FLAT
deriving DecidableEq, Repr

/-- Candle, from src/types.ts.  `symbol` is the data-identity tag; a candle
built by the resampler carries no symbol, modelled as the empty string. -/
structure Candle where
  symbol : String := ""
  time : ℕ := 0
  open_ : ℚ := 0
  high : ℚ := 0
  low : ℚ := 0
  close : ℚ := 0
  volume : ℚ := 0
  isClosed : Bool := false
  ema7 : Option ℚ := none
  ema25 : Option ℚ := none
  ema99 : Option ℚ := none
  macdLine : Option ℚ := none
  macdSignal : Option ℚ := none
  macdHist : Option ℚ := none
deriving DecidableEq, Repr

/-- One multi-level TP/SL ladder entry, from src/types.ts. -/
structure TpLevel where
  pct : ℚ
  qtyPct : ℚ
  active : Bool
deriving DecidableEq, Repr

/-- StrategyConfig, from src/types.ts (fields read by the embedded code). -/
structure StrategyConfig where
  id : String := ""
  name : String := ""
  isActive : Bool := false
  symbol : String := ""
  interval : String := ""
  tradeAmount : ℚ := 0
  webhookUrl : String := ""
  secret : String := ""
  triggerOnClose : Bool := false
  manualTakeover : Bool := false
  takeoverDirection : Direction := Direction.FLAT
  takeoverQuantity : ℚ := 0
  trendFilterBlockShort : Bool := false
  trendFilterBlockLong : Bool := false
  useEMA7_25 : Bool := false
  ema7_25_Long : Bool := false
  ema7_25_Short : Bool := false
  ema7_25_ExitLong : Bool := false
  ema7_25_ExitShort : Bool := false
  useEMA7_99 : Bool := false
  ema7_99_Long : Bool := false
  ema7_99_Short : Bool := false
  ema7_99_ExitLong : Bool := false
  ema7_99_ExitShort : Bool := false
  useEMA25_99 : Bool := false
  ema25_99_Long : Bool := false
  ema25_99_Short : Bool := false
  ema25_99_ExitLong : Bool := false
  ema25_99_ExitShort : Bool := false
  useEMADouble : Bool := false
  emaDoubleLong : Bool := false
  emaDoubleShort : Bool := false
  emaDoubleExitLong : Bool := false
  emaDoubleExitShort : Bool := false
  useMACD : Bool := false
  macdFast : ℕ := 12
  macdSlow : ℕ := 26
  macdSignal : ℕ := 9
  macdLong : Bool := false
  macdShort : Bool := false
  macdExitLong : Bool := false
  macdExitShort : Bool := false
  useReversionEntry : Bool := false
  reversionPct : ℚ := 0
  useTrailingStop : Bool := false
  trailActivation : ℚ := 0
  trailDistance : ℚ := 0
  useFixedTPSL : Bool := false
  takeProfitPct : ℚ := 0
  stopLossPct : ℚ := 0
  useMultiTPSL : Bool := false
  tpLevels : List TpLevel := []
  slLevels : List TpLevel := []
  useReverse : Bool := false
  reverseLongToShort : Bool := false
  reverseShortToLong : Bool := false
  maxDailyTrades : ℕ := 0
deriving DecidableEq, Repr

/-- PositionState, from src/types.ts. -/
structure PositionState where
  direction : Direction
  initialQuantity : ℚ
  remainingQuantity : ℚ
  entryPrice : ℚ
  highestPrice : ℚ
  lowestPrice : ℚ
  openTime : ℕ
  tpLevelsHit : List Bool
  slLevelsHit : List Bool
  pendingReversion : Option Direction
  pendingReversionReason : String
deriving DecidableEq, Repr

/-- TradeStats, from src/types.ts. -/
structure TradeStats where
  dailyTradeCount : ℕ
  lastTradeDate : String
deriving DecidableEq, Repr

/-- WebhookPayload, from src/types.ts.  The source stringifies `quantity`;
the rational value is kept here. -/
structure WebhookPayload where
  secret : String
  action : String
  position : String
  symbol : String
  quantity : ℚ
  trade_amount : ℚ
  leverage : ℕ
  timestamp : String
  tv_exchange : String
  strategy_name : String
  tp_level : String
  execution_price : ℚ
  execution_quantity : ℚ
deriving DecidableEq, Repr

/-- Result record of evaluateStrategy, from src/unnamed/part_000. -/
structure StrategyResult where
  newPositionState : PositionState
  newTradeStats : TradeStats
  actions : List WebhookPayload
deriving DecidableEq, Repr

/-! ## Interval parsing and resampling — src/services/resampleService.ts -/

/-- Digits of the numeric prefix folded to a natural (JS parseInt). -/
def digitsToNat (ds : List Char) : ℕ :=
  ds.foldl (fun n c => n * 10 + (c.toNat - 48)) 0

/-- The regex match for the source pattern (one or more digits followed by
one or more ASCII letters, anchored at both ends). -/
def splitNumAlpha (s : String) : Option (ℕ × String) :=
  let cs := s.toList
  let ds := cs.takeWhile Char.isDigit
  let rest := cs.dropWhile Char.isDigit
  if ds ≠ [] ∧ rest ≠ [] ∧ rest.all Char.isAlpha then
    some (digitsToNat ds, String.mk rest)
  else
    none

/-- intervalToMs from src/services/resampleService.ts: numeric prefix times
the unit factor; 60000 when the string does not parse or the unit is not one
of the recognized letters. -/
def intervalToMs (interval : String) : ℕ :=
  match splitNumAlpha interval with
  | none => 60000
  | some (value, unit) =>
    let mult : ℕ :=
      if unit = "s" then 1000
      else if unit = "m" then 60000
      else if unit = "h" then 3600000
      else if unit = "d" then 86400000
      else if unit = "w" then 604800000
      else if unit = "M" then 2592000000
      else 60000
    value * mult

/-- The 23-value closed IntervalType set from src/types.ts. -/
def intervalStrings : List String :=
  ["1m", "2m", "3m", "5m", "6m", "10m", "15m", "20m", "30m", "45m",
   "1h", "2h", "3h", "4h", "6h", "8h", "10h", "12h",
   "1d", "2d", "3d", "1w", "1M"]

/-- The seed candle placed in the map when a bucket is first seen
(`resampledMap.set(targetStartTime, {...})` in resampleCandles). -/
def seedCandle (targetStartTime : ℕ) (base : Candle) : Candle :=
  { symbol := ""
    time := targetStartTime
    open_ := base.open_
    high := base.high
    low := base.low
    close := base.close
    volume := base.volume
    isClosed := false }

/-- Does the association list carry an entry for the key
(`resampledMap.has`)? -/
def hasKey (m : List (ℕ × Candle)) (k : ℕ) : Bool :=
  m.any (fun p => p.1 = k)

/-- Mutate the entry stored under a key in place (`resampledMap.get` then
field assignments). -/
def updateEntry (m : List (ℕ × Candle)) (k : ℕ) (f : Candle → Candle) :
    List (ℕ × Candle) :=
  m.map (fun p => if p.1 = k then (p.1, f p.2) else p)

/-- One iteration of the `for (const base of baseCandles)` loop in
resampleCandles.  Note the source seeds the bucket with the first base
candle's volume and then unconditionally adds `base.volume` again. -/
def resampleStep (targetMs baseMs : ℕ) (m : List (ℕ × Candle))
    (base : Candle) : List (ℕ × Candle) :=
  let targetStartTime := base.time / targetMs * targetMs
  let m1 := if hasKey m targetStartTime then m
            else m ++ [(targetStartTime, seedCandle targetStartTime base)]
  updateEntry m1 targetStartTime (fun current =>
    { current with
      high := max current.high base.high
      low := min current.low base.low
      close := base.close
      volume := current.volume + base.volume
      isClosed :=
        if base.isClosed ∧ targetStartTime + targetMs ≤ base.time + baseMs
        then true else current.isClosed })

/-- Insert a candle into a time-sorted list, after existing candles of
lower-or-equal time (stable insertion, matching the stable JS sort). -/
def insertByTime (c : Candle) : List Candle → List Candle
  | [] => [c]
  | d :: ds => if c.time < d.time then c :: d :: ds else d :: insertByTime c ds

/-- `array.sort((a, b) => a.time - b.time)`. -/
def sortByTime : List Candle → List Candle
  | [] => []
  | c :: cs => insertByTime c (sortByTime cs)

/-- resampleCandles from src/services/resampleService.ts. -/
def resampleCandles (baseCandles : List Candle)
    (targetInterval baseInterval : String) : List Candle :=
  let targetMs := intervalToMs targetInterval
  let baseMs := intervalToMs baseInterval
  let resampledMap := baseCandles.foldl (resampleStep targetMs baseMs) []
  sortByTime (resampledMap.map Prod.snd)

/-! ## Evaluation Core — src/unnamed/part_000 (strategyEngine) -/

/-- The quantity-exhaustion epsilon (the literal 0.000001 in the source). -/
def eps : ℚ := 1 / 1000000

/-- JS `toUpperCase` on the ASCII symbol strings (kept kernel-computable). -/
def jsToUpper (s : String) : String := String.mk (s.toList.map Char.toUpper)

/-- JS `a <= b` where either operand may be `undefined` (then false). -/
def jsLe (a b : Option ℚ) : Bool :=
  match a, b with
  | some x, some y => decide (x ≤ y)
  | _, _ => false

/-- JS `a >= b` where either operand may be `undefined` (then false). -/
def jsGe (a b : Option ℚ) : Bool :=
  match a, b with
  | some x, some y => decide (y ≤ x)
  | _, _ => false

/-- crossOver helper: `prevA <= prevB && currA > currB` (the prev values are
passed through a JS non-null assertion and may in fact be undefined, in
which case the comparison is false). -/
def crossOver (currA currB : ℚ) (prevA prevB : Option ℚ) : Bool :=
  jsLe prevA prevB && decide (currB < currA)

/-- crossUnder helper: `prevA >= prevB && currA < currB`. -/
def crossUnder (currA currB : ℚ) (prevA prevB : Option ℚ) : Bool :=
  jsGe prevA prevB && decide (currA < currB)

/-- `direction.toLowerCase()`. -/
def dirLower : Direction → String
  | Direction.LONG => "long"
  | Direction.SHORT => "short"
  | Direction.FLAT => "flat"

/-- Read of a level-hit array cell; a JS out-of-range read is undefined,
hence falsy. -/
def getHit (hits : List Bool) (idx : ℕ) : Bool :=
  hits.getD idx false

/-- `newHits[idx] = true` on a copy of the array; JS extends with holes
(falsy, read back as false) when idx is beyond the length. -/
def setHit (hits : List Bool) (idx : ℕ) : List Bool :=
  if idx < hits.length then hits.set idx true
  else hits ++ List.replicate (idx - hits.length) false ++ [true]

/-- Daily-stats rollover (lines 38–41 of evaluateStrategy). -/
def resetStats (stats : TradeStats) (dateKey : String) : TradeStats :=
  if stats.lastTradeDate ≠ dateKey then
    { dailyTradeCount := 0, lastTradeDate := dateKey }
  else stats

/-- The `createPayload` closure inside evaluateStrategy. -/
def createPayload (config : StrategyConfig) (nowIso : String)
    (lastClose : ℚ) (act pos comment : String) (amountVal qty : ℚ) :
    WebhookPayload :=
  { secret := config.secret
    action := act
    position := pos
    symbol := config.symbol
    quantity := qty
    trade_amount := amountVal
    leverage := 5
    timestamp := nowIso
    tv_exchange := "BINANCE"
    strategy_name := config.name
    tp_level := comment
    execution_price := lastClose
    execution_quantity := qty }

/-- `isSignalTrigger` (line 46). -/
def isSignalTrigger (config : StrategyConfig) (last : Candle) : Bool :=
  if config.triggerOnClose then last.isClosed else true

/-- Trend filter block flag for shorts: uptrend `ema7 > ema25 > ema99`. -/
def blockShort (config : StrategyConfig) (e7 e25 e99 : ℚ) : Bool :=
  config.trendFilterBlockShort && decide (e25 < e7 ∧ e99 < e25)

/-- Trend filter block flag for longs: downtrend `ema7 < ema25 < ema99`. -/
def blockLong (config : StrategyConfig) (e7 e25 e99 : ℚ) : Bool :=
  config.trendFilterBlockLong && decide (e7 < e25 ∧ e25 < e99)

/-- EMA7/25 cross up (gated by useEMA7_25, line 64). -/
def ema7_25_Up (config : StrategyConfig) (e7 e25 : ℚ) (prev : Candle) : Bool :=
  config.useEMA7_25 && crossOver e7 e25 prev.ema7 prev.ema25

/-- EMA7/25 cross down (line 65). -/
def ema7_25_Down (config : StrategyConfig) (e7 e25 : ℚ) (prev : Candle) : Bool :=
  config.useEMA7_25 && crossUnder e7 e25 prev.ema7 prev.ema25

/-- EMA7/99 cross up (line 67). -/
def ema7_99_Up (config : StrategyConfig) (e7 e99 : ℚ) (prev : Candle) : Bool :=
  config.useEMA7_99 && crossOver e7 e99 prev.ema7 prev.ema99

/-- EMA7/99 cross down (line 68). -/
def ema7_99_Down (config : StrategyConfig) (e7 e99 : ℚ) (prev : Candle) : Bool :=
  config.useEMA7_99 && crossUnder e7 e99 prev.ema7 prev.ema99

/-- EMA25/99 cross up (line 70). -/
def ema25_99_Up (config : StrategyConfig) (e25 e99 : ℚ) (prev : Candle) : Bool :=
  config.useEMA25_99 && crossOver e25 e99 prev.ema25 prev.ema99

/-- EMA25/99 cross down (line 71). -/
def ema25_99_Down (config : StrategyConfig) (e25 e99 : ℚ) (prev : Candle) : Bool :=
  config.useEMA25_99 && crossUnder e25 e99 prev.ema25 prev.ema99

/-- Double EMA cross up: 7 or 25 crossing over 99 (lines 74–79). -/
def emaDouble_Up (config : StrategyConfig) (e7 e25 e99 : ℚ) (prev : Candle) :
    Bool :=
  config.useEMADouble &&
    (crossOver e7 e99 prev.ema7 prev.ema99 ||
     crossOver e25 e99 prev.ema25 prev.ema99)

/-- Double EMA cross down (lines 76–80). -/
def emaDouble_Down (config : StrategyConfig) (e7 e25 e99 : ℚ) (prev : Candle) :
    Bool :=
  config.useEMADouble &&
    (crossUnder e7 e99 prev.ema7 prev.ema99 ||
     crossUnder e25 e99 prev.ema25 prev.ema99)

/-- MACD golden cross (lines 84–85): requires the last candle's line and
signal to be defined. -/
def macdBuy (config : StrategyConfig) (last prev : Candle) : Bool :=
  config.useMACD &&
    match last.macdLine, last.macdSignal with
    | some lm, some ls => crossOver lm ls prev.macdLine prev.macdSignal
    | _, _ => false

/-- MACD death cross (lines 86–87). -/
def macdSell (config : StrategyConfig) (last prev : Candle) : Bool :=
  config.useMACD &&
    match last.macdLine, last.macdSignal with
    | some lm, some ls => crossUnder lm ls prev.macdLine prev.macdSignal
    | _, _ => false

/-- Long entry reason cascade (lines 92–99). -/
def longEntryReason (config : StrategyConfig) (last prev : Candle)
    (e7 e25 e99 : ℚ) : String :=
  if ¬config.manualTakeover ∧ isSignalTrigger config last ∧
      ¬blockLong config e7 e25 e99 then
    if config.useEMA7_25 ∧ config.ema7_25_Long ∧ ema7_25_Up config e7 e25 prev
      then "EMA7上穿25开多"
    else if config.useEMA7_99 ∧ config.ema7_99_Long ∧
        ema7_99_Up config e7 e99 prev then "EMA7上穿99开多"
    else if config.useEMA25_99 ∧ config.ema25_99_Long ∧
        ema25_99_Up config e25 e99 prev then "EMA25上穿99开多"
    else if config.useEMADouble ∧ config.emaDoubleLong ∧
        emaDouble_Up config e7 e25 e99 prev then "EMA7/25上穿99开多"
    else if config.useMACD ∧ config.macdLong ∧ macdBuy config last prev
      then "MACD金叉开多"
    else ""
  else ""

/-- Short entry reason cascade (lines 101–108). -/
def shortEntryReason (config : StrategyConfig) (last prev : Candle)
    (e7 e25 e99 : ℚ) : String :=
  if ¬config.manualTakeover ∧ isSignalTrigger config last ∧
      ¬blockShort config e7 e25 e99 then
    if config.useEMA7_25 ∧ config.ema7_25_Short ∧
        ema7_25_Down config e7 e25 prev then "EMA7下穿25开空"
    else if config.useEMA7_99 ∧ config.ema7_99_Short ∧
        ema7_99_Down config e7 e99 prev then "EMA7下穿99开空"
    else if config.useEMA25_99 ∧ config.ema25_99_Short ∧
        ema25_99_Down config e25 e99 prev then "EMA25下穿99开空"
    else if config.useEMADouble ∧ config.emaDoubleShort ∧
        emaDouble_Down config e7 e25 e99 prev then "EMA7/25下穿99开空"
    else if config.useMACD ∧ config.macdShort ∧ macdSell config last prev
      then "MACD死叉开空"
    else ""
  else ""

/-- Exit-long reason cascade (lines 112–119); not gated by manualTakeover. -/
def exitLongReason (config : StrategyConfig) (last prev : Candle)
    (e7 e25 e99 : ℚ) : String :=
  if isSignalTrigger config last then
    if config.useEMA7_25 ∧ config.ema7_25_ExitLong ∧
        ema7_25_Down config e7 e25 prev then "EMA7下穿25平多"
    else if config.useEMA7_99 ∧ config.ema7_99_ExitLong ∧
        ema7_99_Down config e7 e99 prev then "EMA7下穿99平多"
    else if config.useEMA25_99 ∧ config.ema25_99_ExitLong ∧
        ema25_99_Down config e25 e99 prev then "EMA25下穿99平多"
    else if config.useEMADouble ∧ config.emaDoubleExitLong ∧
        emaDouble_Down config e7 e25 e99 prev then "EMA7/25下穿99平多"
    else if config.useMACD ∧ config.macdExitLong ∧ macdSell config last prev
      then "MACD死叉平多"
    else ""
  else ""

/-- Exit-short reason cascade (lines 121–128). -/
def exitShortReason (config : StrategyConfig) (last prev : Candle)
    (e7 e25 e99 : ℚ) : String :=
  if isSignalTrigger config last then
    if config.useEMA7_25 ∧ config.ema7_25_ExitShort ∧
        ema7_25_Up config e7 e25 prev then "EMA7上穿25平空"
    else if config.useEMA7_99 ∧ config.ema7_99_ExitShort ∧
        ema7_99_Up config e7 e99 prev then "EMA7上穿99平空"
    else if config.useEMA25_99 ∧ config.ema25_99_ExitShort ∧
        ema25_99_Up config e25 e99 prev then "EMA25上穿99平空"
    else if config.useEMADouble ∧ config.emaDoubleExitShort ∧
        emaDouble_Up config e7 e25 e99 prev then "EMA7/25上穿99平空"
    else if config.useMACD ∧ config.macdExitShort ∧ macdBuy config last prev
      then "MACD金叉平空"
    else ""
  else ""

/-- The FLAT reset position assigned on a full close (lines 275–287). -/
def emptyPos : PositionState :=
  { direction := Direction.FLAT
    initialQuantity := 0
    remainingQuantity := 0
    entryPrice := 0
    highestPrice := 0
    lowestPrice := 0
    openTime := 0
    tpLevelsHit := []
    slLevelsHit := []
    pendingReversion := none
    pendingReversionReason := "" }

/-- Steps 1–3 of the non-FLAT block: signal exit, fixed TP/SL, trailing stop
(lines 161–196).  Returns the tentative position (the trailing-stop branch
mutates the extremum in place) and the close reason so far. -/
def cascadeCloseReason (config : StrategyConfig) (last : Candle)
    (isLong : Bool) (exitL exitS : String) (pos : PositionState) :
    PositionState × String :=
  let entryPrice := pos.entryPrice
  let fc1 := if isLong ∧ exitL ≠ "" then exitL else ""
  let fc2 := if ¬isLong ∧ exitS ≠ "" then exitS else fc1
  let fc3 :=
    if config.useFixedTPSL ∧ ¬config.useTrailingStop ∧ ¬config.useMultiTPSL ∧
        fc2 = "" then
      let longTPHit := isLong ∧ entryPrice * (1 + config.takeProfitPct / 100) ≤ last.high
      let longSLHit := isLong ∧ last.low ≤ entryPrice * (1 - config.stopLossPct / 100)
      let shortTPHit := ¬isLong ∧ last.low ≤ entryPrice * (1 - config.takeProfitPct / 100)
      let shortSLHit := ¬isLong ∧ entryPrice * (1 + config.stopLossPct / 100) ≤ last.high
      if longTPHit ∨ shortTPHit then "固定止盈触发"
      else if longSLHit ∨ shortSLHit then "固定止损触发"
      else fc2
    else fc2
  if config.useTrailingStop ∧ fc3 = "" then
    if isLong then
      let hp := max pos.highestPrice last.high
      let pos' := { pos with highestPrice := hp }
      let stopPrice := hp * (1 - config.trailDistance / 100)
      let activationPrice := entryPrice * (1 + config.trailActivation / 100)
      if activationPrice ≤ hp ∧ last.low ≤ stopPrice then (pos', "追踪止盈触发")
      else (pos', fc3)
    else
      let lp := min pos.lowestPrice last.low
      let pos' := { pos with lowestPrice := lp }
      let stopPrice := lp * (1 + config.trailDistance / 100)
      let activationPrice := entryPrice * (1 - config.trailActivation / 100)
      if lp ≤ activationPrice ∧ stopPrice ≤ last.high then (pos', "追踪止盈触发")
      else (pos', fc3)
  else (pos, fc3)

/-- The `config.tpLevels.forEach` loop (lines 201–227). -/
def tpLoop (config : StrategyConfig) (last : Candle) (nowIso : String)
    (isLong : Bool) (entryPrice : ℚ) :
    List TpLevel → ℕ → PositionState × List WebhookPayload →
    PositionState × List WebhookPayload
  | [], _, st => st
  | tp :: rest, idx, (pos, acts) =>
    let st' :=
      if ¬tp.active ∨ getHit pos.tpLevelsHit idx ∨ pos.remainingQuantity ≤ eps
        then (pos, acts)
      else
        let targetPrice := if isLong then entryPrice * (1 + tp.pct / 100)
                           else entryPrice * (1 - tp.pct / 100)
        let hit := if isLong then targetPrice ≤ last.high
                   else last.low ≤ targetPrice
        if hit then
          let qtyToSell := pos.initialQuantity * (tp.qtyPct / 100)
          let actualQty := min qtyToSell pos.remainingQuantity
          let tradeValue := actualQty * last.close
          let action := if isLong then "sell" else "buy"
          let acts' := acts ++ [createPayload config nowIso last.close action
            (dirLower pos.direction) ("止盈" ++ toString (idx + 1) ++ "触发")
            tradeValue actualQty]
          let pos' := { pos with
            remainingQuantity := max 0 (pos.remainingQuantity - actualQty)
            tpLevelsHit := setHit pos.tpLevelsHit idx }
          (pos', acts')
        else (pos, acts)
    tpLoop config last nowIso isLong entryPrice rest (idx + 1) st'

/-- The `config.slLevels.forEach` loop (lines 230–253). -/
def slLoop (config : StrategyConfig) (last : Candle) (nowIso : String)
    (isLong : Bool) (entryPrice : ℚ) :
    List TpLevel → ℕ → PositionState × List WebhookPayload →
    PositionState × List WebhookPayload
  | [], _, st => st
  | sl :: rest, idx, (pos, acts) =>
    let st' :=
      if ¬sl.active ∨ getHit pos.slLevelsHit idx ∨ pos.remainingQuantity ≤ eps
        then (pos, acts)
      else
        let targetPrice := if isLong then entryPrice * (1 - sl.pct / 100)
                           else entryPrice * (1 + sl.pct / 100)
        let hit := if isLong then last.low ≤ targetPrice
                   else targetPrice ≤ last.high
        if hit then
          let qtyToSell := pos.initialQuantity * (sl.qtyPct / 100)
          let actualQty := min qtyToSell pos.remainingQuantity
          let tradeValue := actualQty * last.close
          let action := if isLong then "sell" else "buy"
          let acts' := acts ++ [createPayload config nowIso last.close action
            (dirLower pos.direction) ("止损" ++ toString (idx + 1) ++ "触发")
            tradeValue actualQty]
          let pos' := { pos with
            remainingQuantity := max 0 (pos.remainingQuantity - actualQty)
            slLevelsHit := setHit pos.slLevelsHit idx }
          (pos', acts')
        else (pos, acts)
    slLoop config last nowIso isLong entryPrice rest (idx + 1) st'

/-- Step 4, the multi-level TP/SL ladder (lines 199–254): take-profit levels
first, then stop-loss levels. -/
def multiTPSL (config : StrategyConfig) (last : Candle) (nowIso : String)
    (isLong : Bool) (entryPrice : ℚ) (pos : PositionState) :
    PositionState × List WebhookPayload :=
  slLoop config last nowIso isLong entryPrice config.slLevels 0
    (tpLoop config last nowIso isLong entryPrice config.tpLevels 0 (pos, []))

/-- The non-FLAT block up to (and including) the "all levels reached"
cleanup (lines 155–259): returns the tentative position, the final close
reason, and the partial-close orders emitted so far. -/
def exitPrep (config : StrategyConfig) (last : Candle) (nowIso : String)
    (exitL exitS : String) (pos : PositionState) :
    PositionState × String × List WebhookPayload :=
  let isLong := decide (pos.direction = Direction.LONG)
  let pc := cascadeCloseReason config last isLong exitL exitS pos
  let ma := if config.useMultiTPSL ∧ ¬config.useTrailingStop ∧ pc.2 = "" then
              multiTPSL config last nowIso isLong pos.entryPrice pc.1
            else (pc.1, [])
  let fc := if ma.1.remainingQuantity ≤ eps ∧ pc.2 = "" then "全部止盈/止损完成"
            else pc.2
  (ma.1, fc, ma.2)

/-- Outcome of the non-FLAT block: `done` records whether the early
`return` inside the full-close branch was taken. -/
structure ExitOutcome where
  done : Bool
  pos : PositionState
  stats : TradeStats
  actions : List WebhookPayload
deriving DecidableEq, Repr

/-- The full-close execution and reverse logic (lines 262–333). -/
def fullCloseExec (config : StrategyConfig) (last : Candle)
    (nowIso : String) (nowMs : ℕ) (isLong : Bool) (exitL exitS : String)
    (canOpen : Bool) (pos3 : PositionState) (stats : TradeStats)
    (acts1 : List WebhookPayload) (fc : String) : ExitOutcome :=
  let closeActs :=
    if eps < pos3.remainingQuantity then
      [createPayload config nowIso last.close (if isLong then "sell" else "buy")
        "flat" fc (pos3.remainingQuantity * last.close) pos3.remainingQuantity]
    else []
  let stats2 := { stats with dailyTradeCount := stats.dailyTradeCount + 1 }
  let isSignalExit := (isLong ∧ fc = exitL) ∨ (¬isLong ∧ fc = exitS)
  if config.useReverse ∧ isSignalExit ∧ ¬config.manualTakeover then
    let newQty := config.tradeAmount / last.close
    if isLong ∧ config.reverseLongToShort ∧ canOpen then
      { done := true
        pos := { direction := Direction.SHORT
                 initialQuantity := newQty
                 remainingQuantity := newQty
                 entryPrice := last.close
                 highestPrice := 0
                 lowestPrice := last.low
                 openTime := nowMs
                 tpLevelsHit := []
                 slLevelsHit := []
                 pendingReversion := none
                 pendingReversionReason := "" }
        stats := stats2
        actions := acts1 ++ closeActs ++
          [createPayload config nowIso last.close "sell" "short" "反手开空"
            config.tradeAmount newQty] }
    else if ¬isLong ∧ config.reverseShortToLong ∧ canOpen then
      { done := true
        pos := { direction := Direction.LONG
                 initialQuantity := newQty
                 remainingQuantity := newQty
                 entryPrice := last.close
                 highestPrice := last.high
                 lowestPrice := 0
                 openTime := nowMs
                 tpLevelsHit := []
                 slLevelsHit := []
                 pendingReversion := none
                 pendingReversionReason := "" }
        stats := stats2
        actions := acts1 ++ closeActs ++
          [createPayload config nowIso last.close "buy" "long" "反手开多"
            config.tradeAmount newQty] }
    else
      { done := true, pos := emptyPos, stats := stats2,
        actions := acts1 ++ closeActs }
  else
    { done := true, pos := emptyPos, stats := stats2,
      actions := acts1 ++ closeActs }

/-- Section A of evaluateStrategy: exits and updates for existing positions
(lines 155–334). -/
def exitSection (config : StrategyConfig) (last : Candle) (nowIso : String)
    (nowMs : ℕ) (exitL exitS : String) (canOpen : Bool)
    (pos : PositionState) (stats : TradeStats) : ExitOutcome :=
  let isLong := decide (pos.direction = Direction.LONG)
  let pr := exitPrep config last nowIso exitL exitS pos
  if pr.2.1 ≠ "" then
    fullCloseExec config last nowIso nowMs isLong exitL exitS canOpen
      pr.1 stats pr.2.2 pr.2.1
  else
    { done := false, pos := pr.1, stats := stats, actions := pr.2.2 }

/-- A freshly opened position (used by the immediate entries, the reversion
trigger and the reverse logic all build the same record shape). -/
def openPos (dir : Direction) (qty : ℚ) (last : Candle) (nowMs : ℕ) :
    PositionState :=
  { direction := dir
    initialQuantity := qty
    remainingQuantity := qty
    entryPrice := last.close
    highestPrice := if dir = Direction.LONG then last.high else 0
    lowestPrice := if dir = Direction.SHORT then last.low else 0
    openTime := nowMs
    tpLevelsHit := []
    slLevelsHit := []
    pendingReversion := none
    pendingReversionReason := "" }

/-- Section B of evaluateStrategy: entries when FLAT (lines 336–442),
including the deferred price-reversion mode.  `e7` is the last candle's
EMA7 (already known defined); the source guards the reversion mode with the
truthiness of `last.ema7`, i.e. `e7 ≠ 0` here. -/
def entrySection (config : StrategyConfig) (last : Candle) (nowIso : String)
    (nowMs : ℕ) (e7 : ℚ) (longR shortR : String) (canOpen : Bool)
    (pos : PositionState) (stats : TradeStats)
    (actions : List WebhookPayload) : StrategyResult :=
  if pos.direction = Direction.FLAT ∧ canOpen ∧ ¬config.manualTakeover then
    let qty := config.tradeAmount / last.close
    let tradeVal := config.tradeAmount
    if config.useReversionEntry ∧ e7 ≠ 0 then
      match pos.pendingReversion with
      | some prd =>
        let targetPrice := e7 * (1 + config.reversionPct / 100)
        let trigger := (prd = Direction.LONG ∧ last.close ≤ targetPrice) ∨
                       (prd = Direction.SHORT ∧ targetPrice ≤ last.close)
        if trigger then
          let act := if prd = Direction.LONG then "buy" else "sell"
          let reason := pos.pendingReversionReason ++ " (回归EMA7触发)"
          { newPositionState := openPos prd qty last nowMs
            newTradeStats := stats
            actions := actions ++
              [createPayload config nowIso last.close act (dirLower prd)
                reason tradeVal qty] }
        else
          let pos' :=
            if shortR ≠ "" ∧ prd = Direction.LONG then
              { pos with pendingReversion := some Direction.SHORT
                         pendingReversionReason := shortR }
            else if longR ≠ "" ∧ prd = Direction.SHORT then
              { pos with pendingReversion := some Direction.LONG
                         pendingReversionReason := longR }
            else pos
          { newPositionState := pos', newTradeStats := stats,
            actions := actions }
      | none =>
        if longR ≠ "" then
          { newPositionState := { pos with
              pendingReversion := some Direction.LONG
              pendingReversionReason := longR }
            newTradeStats := stats, actions := actions }
        else if shortR ≠ "" then
          { newPositionState := { pos with
              pendingReversion := some Direction.SHORT
              pendingReversionReason := shortR }
            newTradeStats := stats, actions := actions }
        else
          { newPositionState := pos, newTradeStats := stats,
            actions := actions }
    else
      if longR ≠ "" then
        { newPositionState := openPos Direction.LONG qty last nowMs
          newTradeStats := stats
          actions := actions ++
            [createPayload config nowIso last.close "buy" "long" longR
              tradeVal qty] }
      else if shortR ≠ "" then
        { newPositionState := openPos Direction.SHORT qty last nowMs
          newTradeStats := stats
          actions := actions ++
            [createPayload config nowIso last.close "sell" "short" shortR
              tradeVal qty] }
      else
        { newPositionState := pos, newTradeStats := stats,
          actions := actions }
  else
    { newPositionState := pos, newTradeStats := stats, actions := actions }

/-- A placeholder candle for the (guarded, unreachable) list accesses. -/
def dummyCandle : Candle := {}

/-- evaluateStrategy from src/unnamed/part_000.  The wall-clock reads are
injected: `dateKey` is the current UTC date string, `nowIso` the ISO
timestamp, `nowMs` the epoch milliseconds. -/
def evaluateStrategy (candles : List Candle) (config : StrategyConfig)
    (currentPosition : PositionState) (tradeStats : TradeStats)
    (dateKey nowIso : String) (nowMs : ℕ) : StrategyResult :=
  if candles.length < 50 ∨ ¬config.isActive then
    { newPositionState := currentPosition, newTradeStats := tradeStats,
      actions := [] }
  else
    let last := candles.getLastD dummyCandle
    let prev := candles.dropLast.getLastD dummyCandle
    let stats1 := resetStats tradeStats dateKey
    match last.ema7, last.ema25, last.ema99 with
    | some e7, some e25, some e99 =>
      let exitL := exitLongReason config last prev e7 e25 e99
      let exitS := exitShortReason config last prev e7 e25 e99
      let longR := longEntryReason config last prev e7 e25 e99
      let shortR := shortEntryReason config last prev e7 e25 e99
      let canOpen := decide (stats1.dailyTradeCount < config.maxDailyTrades)
      if currentPosition.direction ≠ Direction.FLAT then
        let eo := exitSection config last nowIso nowMs exitL exitS canOpen
          currentPosition stats1
        if eo.done then
          { newPositionState := eo.pos, newTradeStats := eo.stats,
            actions := eo.actions }
        else
          entrySection config last nowIso nowMs e7 longR shortR canOpen
            eo.pos eo.stats eo.actions
      else
        entrySection config last nowIso nowMs e7 longR shortR canOpen
          currentPosition stats1 []
    | _, _, _ =>
      { newPositionState := currentPosition, newTradeStats := stats1,
        actions := [] }

/-! ## Strategy runtime — src/server/StrategyRunner.ts -/

/-- INITIAL_POS_STATE (the literal omits the pending-reversion fields,
which therefore read as undefined/falsy; modelled as none and ""). -/
def INITIAL_POS_STATE : PositionState :=
  { direction := Direction.FLAT
    initialQuantity := 0
    remainingQuantity := 0
    entryPrice := 0
    highestPrice := 0
    lowestPrice := 0
    openTime := 0
    tpLevelsHit := []
    slLevelsHit := []
    pendingReversion := none
    pendingReversionReason := "" }

/-- The per-strategy runtime state mutated by StrategyRunner. -/
structure StrategyRuntime where
  config : StrategyConfig
  candles : List Candle
  positionState : PositionState
  tradeStats : TradeStats
  lastPrice : ℚ
deriving DecidableEq, Repr

/-- StrategyRunner.initializeManualPosition (lines 104–145): install a
synthetic position from the takeover fields; FLAT resets to the initial
state.  Returns the new runtime and the emitted orders. -/
def initializeManualPosition (config : StrategyConfig)
    (rt : StrategyRuntime) (nowIso : String) (nowMs : ℕ) :
    StrategyRuntime × List WebhookPayload :=
  let direction := config.takeoverDirection
  let qty := config.takeoverQuantity
  if direction = Direction.FLAT then
    ({ rt with positionState := INITIAL_POS_STATE }, [])
  else
    let price := rt.lastPrice
    let newPos : PositionState :=
      { direction := direction
        initialQuantity := qty
        remainingQuantity := qty
        entryPrice := price
        highestPrice := if direction = Direction.LONG then price else 0
        lowestPrice := if direction = Direction.SHORT then price else 0
        openTime := nowMs
        tpLevelsHit := []
        slLevelsHit := []
        pendingReversion := none
        pendingReversionReason := "" }
    let payload : WebhookPayload :=
      { secret := config.secret
        action := if direction = Direction.LONG then "buy" else "sell"
        position := dirLower direction
        symbol := config.symbol
        quantity := qty
        trade_amount := qty * price
        leverage := 5
        timestamp := nowIso
        tv_exchange := "BINANCE"
        strategy_name := config.name
        tp_level := "Manual_Takeover_Init"
        execution_price := price
        execution_quantity := qty }
    ({ rt with positionState := newPos }, [payload])

/-- StrategyRunner.handleManualOrder (lines 147–217). -/
def handleManualOrder (rt : StrategyRuntime) (type : Direction)
    (nowIso : String) (nowMs : ℕ) : StrategyRuntime × List WebhookPayload :=
  let price := rt.lastPrice
  if price = 0 then (rt, [])
  else
    let act := if type = Direction.LONG then "buy"
               else if type = Direction.SHORT then "sell"
               else if rt.positionState.direction = Direction.LONG then "sell"
               else "buy_to_cover"
    let pos := dirLower type
    let quantity := if type = Direction.FLAT then
                      rt.positionState.remainingQuantity
                    else rt.config.tradeAmount / price
    let tradeAmount := if type = Direction.FLAT then quantity * price
                       else rt.config.tradeAmount
    let payload : WebhookPayload :=
      { secret := rt.config.secret
        action := act
        position := pos
        symbol := rt.config.symbol
        quantity := quantity
        trade_amount := tradeAmount
        leverage := 5
        timestamp := nowIso
        tv_exchange := "BINANCE"
        strategy_name := "Manual_Override"
        tp_level := "手动操作"
        execution_price := price
        execution_quantity := quantity }
    if type = Direction.FLAT then
      ({ rt with positionState := INITIAL_POS_STATE }, [payload])
    else
      let newState : PositionState :=
        { direction := type
          initialQuantity := quantity
          remainingQuantity := quantity
          entryPrice := price
          highestPrice := if type = Direction.LONG then price else 0
          lowestPrice := if type = Direction.SHORT then price else 0
          openTime := nowMs
          tpLevelsHit := []
          slLevelsHit := []
          pendingReversion := none
          pendingReversionReason := "" }
      let newStats := { rt.tradeStats with
        dailyTradeCount := rt.tradeStats.dailyTradeCount + 1 }
      ({ rt with positionState := newState, tradeStats := newStats },
       [payload])

/-- Modelled from the spec: the Indicator Kernel
(`enrichCandlesWithIndicators`, src/services/indicatorService.ts) is not
under src/; only its call sites are.  handleDataUpdate is therefore
parameterized by the enrichment function `enrich` (spec §4.3: a pure
function of the candle sequence).  The claims settled here do not depend
on the enrichment values.

StrategyRunner.handleDataUpdate (lines 220–265): the zero-tolerance
identity check drops the batch only when the first candle's symbol is
truthy (non-empty) and differs case-insensitively from the configured
symbol; then lastPrice, the candle buffer, the position and stats are
updated from the Evaluation Core, whose orders are returned. -/
def handleDataUpdate (rt : StrategyRuntime) (candles : List Candle)
    (enrich : List Candle → List Candle) (dateKey nowIso : String)
    (nowMs : ℕ) : StrategyRuntime × List WebhookPayload :=
  match candles with
  | [] => (rt, [])
  | first :: _ =>
    if first.symbol ≠ "" ∧ jsToUpper first.symbol ≠ jsToUpper rt.config.symbol
    then (rt, [])
    else
      let lastPrice := (candles.getLastD dummyCandle).close
      let enriched := enrich candles
      let result := evaluateStrategy enriched rt.config rt.positionState
        rt.tradeStats dateKey nowIso nowMs
      ({ rt with
          lastPrice := lastPrice
          candles := enriched
          positionState := result.newPositionState
          tradeStats := result.newTradeStats },
       result.actions)

/-! ## Stream shard buffer — src/server/DataEngine.ts -/

/-- `slice(-MAX_CANDLES)` trimming of the base buffer (MAX_CANDLES=5000). -/
def trimToMax (l : List Candle) : List Candle :=
  if 5000 < l.length then l.drop (l.length - 5000) else l

/-- StreamHandler.processNewCandle (lines 253–289), the base-buffer part:
overwrite the last candle when the open time matches, else append; then
trim to the cap.  (Persistence and cache invalidation carry no state
modelled here.) -/
def processNewCandle (baseCandles : List Candle) (newCandle : Candle) :
    List Candle :=
  let bc :=
    match baseCandles.getLast? with
    | some lastBase =>
      if lastBase.time = newCandle.time then
        baseCandles.dropLast ++ [newCandle]
      else baseCandles ++ [newCandle]
    | none => baseCandles ++ [newCandle]
  trimToMax bc

/-- JS `Map.set` on an association list keyed by candle time: overwrite in
place when present, else append (insertion order preserved). -/
def mapSetByTime (m : List (ℕ × Candle)) (c : Candle) : List (ℕ × Candle) :=
  if m.any (fun p => p.1 = c.time) then
    m.map (fun p => if p.1 = c.time then (p.1, c) else p)
  else m ++ [(c.time, c)]

/-- The dedup-by-openTime pass of the deep-fetch branch of
StreamHandler.initialize (lines 124–127). -/
def dedupByTime (l : List Candle) : List Candle :=
  (l.foldl mapSetByTime []).map Prod.snd

/-- StreamHandler.initialize, fresh-start branch (lines 94–130 then
132–135): deduplicate the fetched pages by openTime, sort by time, trim to
the cap. -/
def initializeFresh (allFetched : List Candle) : List Candle :=
  trimToMax (sortByTime (dedupByTime allFetched))

/-- StreamHandler.initialize, disk branch (lines 77–93 then 132–135): sort
the loaded data, append the incrementally fetched candles, trim to the
cap. -/
def initializeFromDisk (localData newData : List Candle) : List Candle :=
  trimToMax (sortByTime localData ++ newData)

/-! ## Claim-side specifications and invariants -/

/-- Spec-side description of the take-profit ladder pass (C3): a level is
skipped if inactive, already hit, or the remaining quantity is ≤ 10⁻⁶; a
hit level (target = entry·(1+pct/100) long, entry·(1−pct/100) short; hit
when high reaches it long, low reaches it short) yields the pair (level
index, min(initialQty·qtyPct/100, remaining)), marks the level hit and
decrements the remaining quantity by that amount. -/
def specTPPass (isLong : Bool) (entry hi lo initQty : ℚ) :
    List TpLevel → ℕ → ℚ → List Bool → List (ℕ × ℚ) × ℚ × List Bool
  | [], _, rem, hits => ([], rem, hits)
  | lv :: rest, idx, rem, hits =>
    if ¬lv.active ∨ getHit hits idx ∨ rem ≤ eps then
      specTPPass isLong entry hi lo initQty rest (idx + 1) rem hits
    else
      let target := if isLong then entry * (1 + lv.pct / 100)
                    else entry * (1 - lv.pct / 100)
      let hit := if isLong then target ≤ hi else lo ≤ target
      if hit then
        let q := min (initQty * (lv.qtyPct / 100)) rem
        let res := specTPPass isLong entry hi lo initQty rest (idx + 1)
          (rem - q) (setHit hits idx)
        ((idx, q) :: res.1, res.2)
      else specTPPass isLong entry hi lo initQty rest (idx + 1) rem hits

/-- Spec-side description of the stop-loss ladder pass (C3); target and hit
sides mirrored (target = entry·(1−pct/100) long, entry·(1+pct/100) short;
hit when low reaches it long, high reaches it short). -/
def specSLPass (isLong : Bool) (entry hi lo initQty : ℚ) :
    List TpLevel → ℕ → ℚ → List Bool → List (ℕ × ℚ) × ℚ × List Bool
  | [], _, rem, hits => ([], rem, hits)
  | lv :: rest, idx, rem, hits =>
    if ¬lv.active ∨ getHit hits idx ∨ rem ≤ eps then
      specSLPass isLong entry hi lo initQty rest (idx + 1) rem hits
    else
      let target := if isLong then entry * (1 - lv.pct / 100)
                    else entry * (1 + lv.pct / 100)
      let hit := if isLong then lo ≤ target else target ≤ hi
      if hit then
        let q := min (initQty * (lv.qtyPct / 100)) rem
        let res := specSLPass isLong entry hi lo initQty rest (idx + 1)
          (rem - q) (setHit hits idx)
        ((idx, q) :: res.1, res.2)
      else specSLPass isLong entry hi lo initQty rest (idx + 1) rem hits

/-- The payload the source emits for the i-th take-profit partial close. -/
def tpPartialPayload (config : StrategyConfig) (nowIso : String)
    (last : Candle) (isLong : Bool) (dir : Direction) (iq : ℕ × ℚ) :
    WebhookPayload :=
  createPayload config nowIso last.close (if isLong then "sell" else "buy")
    (dirLower dir) ("止盈" ++ toString (iq.1 + 1) ++ "触发")
    (iq.2 * last.close) iq.2

/-- The payload the source emits for the i-th stop-loss partial close. -/
def slPartialPayload (config : StrategyConfig) (nowIso : String)
    (last : Candle) (isLong : Bool) (dir : Direction) (iq : ℕ × ℚ) :
    WebhookPayload :=
  createPayload config nowIso last.close (if isLong then "sell" else "buy")
    (dirLower dir) ("止损" ++ toString (iq.1 + 1) ++ "触发")
    (iq.2 * last.close) iq.2

/-- The PositionState invariant of spec §3 (claim C8): FLAT implies all
quantities and prices zero and empty level-hit arrays; the remaining
quantity lies between 0 and the initial quantity; the tracked extremum
brackets the entry price. -/
def WellFormedPos (p : PositionState) : Prop :=
  (p.direction = Direction.FLAT →
    p.initialQuantity = 0 ∧ p.remainingQuantity = 0 ∧ p.entryPrice = 0 ∧
    p.highestPrice = 0 ∧ p.lowestPrice = 0 ∧ p.tpLevelsHit = [] ∧
    p.slLevelsHit = []) ∧
  0 ≤ p.remainingQuantity ∧
  p.remainingQuantity ≤ p.initialQuantity ∧
  (p.direction = Direction.LONG → p.entryPrice ≤ p.highestPrice) ∧
  (p.direction = Direction.SHORT → p.lowestPrice ≤ p.entryPrice)

instance (p : PositionState) : Decidable (WellFormedPos p) := by
  unfold WellFormedPos; infer_instance

/-- Candle shape invariant of spec §3 (low ≤ open, close ≤ high), together
with nonnegative prices. -/
def WFCandle (c : Candle) : Prop :=
  0 ≤ c.low ∧ c.low ≤ c.open_ ∧ c.low ≤ c.close ∧ c.open_ ≤ c.high ∧
  c.close ≤ c.high

instance (c : Candle) : Decidable (WFCandle c) := by
  unfold WFCandle; infer_instance

/-- The stream-shard base-buffer invariant of claim C9: capped at 5,000 and
strictly increasing in open time. -/
def BufferInv (l : List Candle) : Prop :=
  l.length ≤ 5000 ∧ l.Pairwise (fun a b => a.time < b.time)

instance (l : List Candle) : Decidable (BufferInv l) := by
  unfold BufferInv; infer_instance

/-! ## Concrete inputs for witnesses and counterexamples -/

/-- Trade stats with no trades today. -/
def exStats : TradeStats := ⟨0, "2026-01-01"⟩

/-- A bare candle carrying no indicators. -/
def exNoEmaCandle : Candle :=
  { time := 0, open_ := 1, high := 1, low := 1, close := 1 }

/-- 50 bare candles (passes the length gate, fails the EMA gate). -/
def exNoEmaCandles : List Candle := List.replicate 50 exNoEmaCandle

/-- A minimal active configuration. -/
def exCfgActive : StrategyConfig := { isActive := true }

/-- A runtime configured for BTCUSDT with no price seen yet. -/
def exRtBtc : StrategyRuntime :=
  { config := { symbol := "BTCUSDT" }
    candles := []
    positionState := INITIAL_POS_STATE
    tradeStats := exStats
    lastPrice := 0 }

/-- A candle with an empty (falsy) symbol tag, as produced by the
resampler, with close 5. -/
def exEmptySymCandle : Candle :=
  { symbol := "", time := 0, open_ := 5, high := 5, low := 5, close := 5 }

/-- A candle tagged ETHUSDT. -/
def exEthCandle : Candle :=
  { symbol := "ETHUSDT", time := 0, open_ := 5, high := 5, low := 5,
    close := 5 }

/-- Base candle for the resampler round-trip check: aligned open time,
volume 1. -/
def exBaseCandle : Candle :=
  { time := 0, open_ := 1, high := 2, low := 1, close := 2, volume := 1,
    isClosed := true }

/-- Second aligned base candle one minute later. -/
def exBaseCandle2 : Candle :=
  { time := 60000, open_ := 2, high := 3, low := 2, close := 3, volume := 1,
    isClosed := true }

/-- Previous candle for an EMA7/25 cross-over into a zero EMA7. -/
def exPrevZero : Candle :=
  { time := 0, open_ := 1, high := 1, low := 1, close := 1, isClosed := true,
    ema7 := some (-2), ema25 := some (-1), ema99 := some (-2) }

/-- Last candle whose EMA7 is exactly 0 (falsy in JS) while an EMA7/25
cross-over entry fires. -/
def exLastZero : Candle :=
  { time := 1, open_ := 1, high := 1, low := 1, close := 1, isClosed := true,
    ema7 := some 0, ema25 := some (-1), ema99 := some (-2) }

/-- Candle window ending in the zero-EMA7 cross-over. -/
def exCandlesZero : List Candle := List.replicate 49 exPrevZero ++ [exLastZero]

/-- Reversion-entry configuration with the EMA7/25 long signal enabled. -/
def exCfgReversion : StrategyConfig :=
  { isActive := true, useEMA7_25 := true, ema7_25_Long := true,
    useReversionEntry := true, tradeAmount := 100, maxDailyTrades := 10 }

/-- Previous candle for a plain EMA7/25 cross-over (EMA7 100 last). -/
def exPrevCross : Candle :=
  { time := 0, open_ := 104, high := 106, low := 103, close := 104,
    isClosed := true, ema7 := some 1, ema25 := some 2, ema99 := some 0 }

/-- Last candle with close 105 and EMA7 100: the cross fires but price is
above the reversion target. -/
def exLastCross : Candle :=
  { time := 1, open_ := 104, high := 106, low := 103, close := 105,
    isClosed := true, ema7 := some 100, ema25 := some 3, ema99 := some 0 }

/-- Candle window ending in the EMA7/25 cross-over at close 105. -/
def exCandlesCross : List Candle := List.replicate 49 exPrevCross ++ [exLastCross]

/-- Configuration closing longs on the EMA7/25 down-cross with reversal
enabled but `reverseLongToShort` disabled. -/
def exCfgNoRevFlag : StrategyConfig :=
  { isActive := true, useEMA7_25 := true, ema7_25_ExitLong := true,
    useReverse := true, reverseLongToShort := false, tradeAmount := 50,
    maxDailyTrades := 10 }

/-- Same configuration with `reverseLongToShort` enabled (spec scenario 4). -/
def exCfgRevFlag : StrategyConfig :=
  { exCfgNoRevFlag with reverseLongToShort := true }

/-- Previous candle ahead of an EMA7/25 down-cross. -/
def exPrevDown : Candle :=
  { time := 0, open_ := 10, high := 12, low := 9, close := 10,
    isClosed := true, ema7 := some 2, ema25 := some 1, ema99 := some 0 }

/-- Last candle completing the EMA7/25 down-cross at close 10. -/
def exLastDown : Candle :=
  { time := 1, open_ := 10, high := 12, low := 9, close := 10,
    isClosed := true, ema7 := some 1, ema25 := some 2, ema99 := some 0 }

/-- Candle window ending in the down-cross. -/
def exCandlesDown : List Candle := List.replicate 49 exPrevDown ++ [exLastDown]

/-- A long position of quantity 1 at entry 10. -/
def exPosLong : PositionState :=
  { direction := Direction.LONG, initialQuantity := 1,
    remainingQuantity := 1, entryPrice := 10, highestPrice := 12,
    lowestPrice := 0, openTime := 0, tpLevelsHit := [], slLevelsHit := [],
    pendingReversion := none, pendingReversionReason := "" }

/-- Multi-level TP configuration of spec scenario 3 (two 50% levels at 1%
and 2%). -/
def exCfgMulti : StrategyConfig :=
  { isActive := true, useMultiTPSL := true, maxDailyTrades := 10,
    tpLevels := [⟨1, 50, true⟩, ⟨2, 50, true⟩], slLevels := [] }

/-- Scenario-3 candle with low 196. -/
def exCandleMulti : Candle :=
  { time := 0, open_ := 199, high := 199, low := 196, close := 197,
    isClosed := true, ema7 := some 1, ema25 := some 1, ema99 := some 1 }

/-- A short position of quantity 4 at entry 200. -/
def exPosShort : PositionState :=
  { direction := Direction.SHORT, initialQuantity := 4,
    remainingQuantity := 4, entryPrice := 200, highestPrice := 0,
    lowestPrice := 196, openTime := 0, tpLevelsHit := [], slLevelsHit := [],
    pendingReversion := none, pendingReversionReason := "" }

/-- A runtime holding a price of 1 but a negative configured trade amount. -/
def exRtNegAmount : StrategyRuntime :=
  { config := { symbol := "BTCUSDT", tradeAmount := -100 }
    candles := []
    positionState := INITIAL_POS_STATE
    tradeStats := exStats
    lastPrice := 1 }

/-- A buffered candle at open time 5. -/
def exCandleT5 : Candle := { time := 5 }

/-- A late-arriving candle at the earlier open time 3. -/
def exCandleT3 : Candle := { time := 3 }

/-! ## Theorems -/

/-- C2 (amended): the short-window and inactive gates return the inputs
bitwise unchanged with no orders; the undefined-EMA gate returns the
position unchanged and no orders, but the trade stats have already gone
through the daily-date reset at that point. -/
theorem C2_early_return_amended (candles : List Candle)
    (config : StrategyConfig) (pos : PositionState) (stats : TradeStats)
    (dateKey nowIso : String) (nowMs : ℕ) :
    (candles.length < 50 ∨ ¬config.isActive →
      evaluateStrategy candles config pos stats dateKey nowIso nowMs =
        ⟨pos, stats, []⟩) ∧
    (50 ≤ candles.length → config.isActive = true →
      ((candles.getLastD dummyCandle).ema7 = none ∨
       (candles.getLastD dummyCandle).ema25 = none ∨
       (candles.getLastD dummyCandle).ema99 = none) →
      evaluateStrategy candles config pos stats dateKey nowIso nowMs =
        ⟨pos, resetStats stats dateKey, []⟩) := by
  constructor
  · intro h
    unfold evaluateStrategy
    rw [if_pos (by simpa using h)]
  · intro h50 hact hnone
    unfold evaluateStrategy
    rw [if_neg (by simp [hact]; omega)]
    rcases hnone with h | h | h <;>
      cases h7 : (candles.getLastD dummyCandle).ema7 <;>
      cases h25 : (candles.getLastD dummyCandle).ema25 <;>
      cases h99 : (candles.getLastD dummyCandle).ema99 <;>
      simp_all

/-- C2 counterexample: with 50 candles, an active config, an undefined
EMA7 and a stale trade date, the returned stats are the reset stats, not
the input stats. -/
theorem C2_counterexample :
    evaluateStrategy exNoEmaCandles exCfgActive INITIAL_POS_STATE
        ⟨5, "2026-01-01"⟩ "2026-01-02" "t" 0 =
      ⟨INITIAL_POS_STATE, ⟨0, "2026-01-02"⟩, []⟩ ∧
    (⟨0, "2026-01-02"⟩ : TradeStats) ≠ ⟨5, "2026-01-01"⟩ := by
  exact ⟨by decide, by decide⟩

/-- C2 witness: the amended theorem applied to a one-candle window (first
gate) and to the 50-candle window without EMAs (third gate). -/
theorem C2_witness :
    evaluateStrategy [exNoEmaCandle] exCfgActive INITIAL_POS_STATE exStats
        "2026-01-01" "t" 0 = ⟨INITIAL_POS_STATE, exStats, []⟩ ∧
    evaluateStrategy exNoEmaCandles exCfgActive INITIAL_POS_STATE exStats
        "2026-01-01" "t" 0 =
      ⟨INITIAL_POS_STATE, resetStats exStats "2026-01-01", []⟩ := by
  constructor
  · exact (C2_early_return_amended [exNoEmaCandle] exCfgActive
      INITIAL_POS_STATE exStats "2026-01-01" "t" 0).1 (by decide)
  · exact (C2_early_return_amended exNoEmaCandles exCfgActive
      INITIAL_POS_STATE exStats "2026-01-01" "t" 0).2 (by decide) (by decide)
      (by decide)

/-- C5 (code bug): resampling a single aligned, closed base candle onto its
own interval preserves time, open, high, low, close and the closed flag,
but doubles the volume — the seed already carries the first candle's volume
and the update adds it again — so the round-trip of the claim fails. -/
theorem C5_volume_not_roundtripped :
    resampleCandles [exBaseCandle] "1m" "1m" =
      [{ exBaseCandle with symbol := "", volume := 2 }] ∧
    exBaseCandle.volume = 1 := by
  exact ⟨by decide, by decide⟩

/-- C7 (amended): a non-empty batch whose first candle has a non-empty
symbol differing case-insensitively from the configured symbol is dropped:
runtime unchanged, no orders. -/
theorem C7_identity_guard_amended (rt : StrategyRuntime) (first : Candle)
    (rest : List Candle) (enrich : List Candle → List Candle)
    (dateKey nowIso : String) (nowMs : ℕ) (h1 : first.symbol ≠ "")
    (h2 : jsToUpper first.symbol ≠ jsToUpper rt.config.symbol) :
    handleDataUpdate rt (first :: rest) enrich dateKey nowIso nowMs =
      (rt, []) := by
  simp only [handleDataUpdate]
  rw [if_pos ⟨h1, h2⟩]

/-- C7 witness: an ETHUSDT-tagged batch delivered to a BTCUSDT strategy is
dropped. -/
theorem C7_witness :
    handleDataUpdate exRtBtc [exEthCandle] id "2026-01-01" "t" 0 =
      (exRtBtc, []) :=
  C7_identity_guard_amended exRtBtc exEthCandle [] id "2026-01-01" "t" 0
    (by decide) (by decide)

/-- C7 counterexample: a batch whose first candle has an empty (falsy)
symbol is processed even though the symbol differs case-insensitively from
the configured one — the runtime's lastPrice changes from 0 to 5, so the
claim as stated fails. -/
theorem C7_counterexample :
    jsToUpper exEmptySymCandle.symbol ≠ jsToUpper exRtBtc.config.symbol ∧
    (handleDataUpdate exRtBtc [exEmptySymCandle] id "2026-01-01" "t"
      0).1.lastPrice = 5 ∧
    exRtBtc.lastPrice = 0 := by
  exact ⟨by decide, by decide, by decide⟩

/-- C9 counterexample: a live candle whose open time precedes the buffer
tail is appended as-is, breaking the strictly-increasing invariant, so the
claim without an input-ordering assumption fails. -/
theorem C9_counterexample :
    BufferInv [exCandleT5] ∧
    ¬BufferInv (processNewCandle [exCandleT5] exCandleT3) := by
  exact ⟨by decide, by decide⟩

/-- The entry section never touches the trade stats. -/
theorem entrySection_newTradeStats (config : StrategyConfig) (last : Candle)
    (nowIso : String) (nowMs : ℕ) (e7 : ℚ) (longR shortR : String)
    (canOpen : Bool) (pos : PositionState) (stats : TradeStats)
    (actions : List WebhookPayload) :
    (entrySection config last nowIso nowMs e7 longR shortR canOpen pos stats
      actions).newTradeStats = stats := by
  unfold entrySection
  dsimp only []
  repeat' split
  all_goals rfl

/-- The full-close branch always takes the early return. -/
theorem fullCloseExec_done (config : StrategyConfig) (last : Candle)
    (nowIso : String) (nowMs : ℕ) (isLong : Bool) (exitL exitS : String)
    (canOpen : Bool) (pos3 : PositionState) (stats : TradeStats)
    (acts1 : List WebhookPayload) (fc : String) :
    (fullCloseExec config last nowIso nowMs isLong exitL exitS canOpen pos3
      stats acts1 fc).done = true := by
  unfold fullCloseExec
  dsimp only []
  repeat' split
  all_goals rfl

/-- The full-close branch increments the daily count and keeps the date. -/
theorem fullCloseExec_stats (config : StrategyConfig) (last : Candle)
    (nowIso : String) (nowMs : ℕ) (isLong : Bool) (exitL exitS : String)
    (canOpen : Bool) (pos3 : PositionState) (stats : TradeStats)
    (acts1 : List WebhookPayload) (fc : String) :
    (fullCloseExec config last nowIso nowMs isLong exitL exitS canOpen pos3
      stats acts1 fc).stats =
      ⟨stats.dailyTradeCount + 1, stats.lastTradeDate⟩ := by
  unfold fullCloseExec
  dsimp only []
  repeat' split
  all_goals rfl

/-- Stats behaviour of the non-FLAT section: incremented exactly on the
full-close path. -/
theorem exitSection_stats (config : StrategyConfig) (last : Candle)
    (nowIso : String) (nowMs : ℕ) (exitL exitS : String) (canOpen : Bool)
    (pos : PositionState) (stats : TradeStats) :
    ((exitSection config last nowIso nowMs exitL exitS canOpen pos
        stats).done = true →
      (exitSection config last nowIso nowMs exitL exitS canOpen pos
        stats).stats = ⟨stats.dailyTradeCount + 1, stats.lastTradeDate⟩) ∧
    ((exitSection config last nowIso nowMs exitL exitS canOpen pos
        stats).done = false →
      (exitSection config last nowIso nowMs exitL exitS canOpen pos
        stats).stats = stats) := by
  unfold exitSection
  dsimp only []
  split
  · constructor
    · intro _
      exact fullCloseExec_stats _ _ _ _ _ _ _ _ _ _ _ _
    · intro h
      rw [fullCloseExec_done] at h
      cases h
  · constructor
    · intro h
      simp at h
    · intro _
      rfl

/-- C10: on the main evaluation path, a tick that starts FLAT (so any state
change is an open: immediate entry, pending-reversion transition, or
reversion-triggered open) returns the post-reset stats untouched; in
general the daily count either stays at the post-reset value or grows by
exactly one, and the latter only on a tick that starts with a non-FLAT
position (the full-close path). -/
theorem C10_open_preserves_daily_count (candles : List Candle)
    (config : StrategyConfig) (pos : PositionState) (stats : TradeStats)
    (dateKey nowIso : String) (nowMs : ℕ) (h50 : 50 ≤ candles.length)
    (hact : config.isActive = true) (e7 e25 e99 : ℚ)
    (h7 : (candles.getLastD dummyCandle).ema7 = some e7)
    (h25 : (candles.getLastD dummyCandle).ema25 = some e25)
    (h99 : (candles.getLastD dummyCandle).ema99 = some e99) :
    (pos.direction = Direction.FLAT →
      (evaluateStrategy candles config pos stats dateKey nowIso
        nowMs).newTradeStats = resetStats stats dateKey) ∧
    ((evaluateStrategy candles config pos stats dateKey nowIso
        nowMs).newTradeStats.dailyTradeCount =
        (resetStats stats dateKey).dailyTradeCount ∨
      ((evaluateStrategy candles config pos stats dateKey nowIso
          nowMs).newTradeStats.dailyTradeCount =
        (resetStats stats dateKey).dailyTradeCount + 1 ∧
       pos.direction ≠ Direction.FLAT)) := by
  have hne : ¬(candles.length < 50 ∨ ¬config.isActive) := by
    simp [hact]; omega
  unfold evaluateStrategy
  rw [if_neg hne]
  simp only [h7, h25, h99]
  constructor
  · intro hflat
    rw [if_neg (by simp [hflat])]
    exact entrySection_newTradeStats ..
  · by_cases hd : pos.direction = Direction.FLAT
    · rw [if_neg (by simp [hd])]
      rw [entrySection_newTradeStats]
      exact Or.inl rfl
    · rw [if_pos hd]
      cases hdone : (exitSection config (candles.getLastD dummyCandle)
          nowIso nowMs
          (exitLongReason config (candles.getLastD dummyCandle)
            (candles.dropLast.getLastD dummyCandle) e7 e25 e99)
          (exitShortReason config (candles.getLastD dummyCandle)
            (candles.dropLast.getLastD dummyCandle) e7 e25 e99)
          (decide ((resetStats stats dateKey).dailyTradeCount <
            config.maxDailyTrades)) pos (resetStats stats dateKey)).done
      · rw [if_neg (by simp)]
        rw [entrySection_newTradeStats]
        rw [(exitSection_stats _ _ _ _ _ _ _ _ _).2 hdone]
        exact Or.inl rfl
      · rw [if_pos rfl]
        refine Or.inr ⟨?_, hd⟩
        rw [(exitSection_stats _ _ _ _ _ _ _ _ _).1 hdone]

/-- C10 witness: spec scenario 5's first tick (FLAT, pending-reversion
transition) leaves the daily count at its post-reset value. -/
theorem C10_witness :
    (evaluateStrategy exCandlesCross exCfgReversion INITIAL_POS_STATE exStats
      "2026-01-01" "t" 0).newTradeStats = resetStats exStats "2026-01-01" :=
  (C10_open_preserves_daily_count exCandlesCross exCfgReversion
    INITIAL_POS_STATE exStats "2026-01-01" "t" 0 (by decide) (by decide)
    100 3 0 (by decide) (by decide) (by decide)).1 (by decide)

/-- C4 (amended): deferred reversion mode additionally requires the last
candle's EMA7 to be non-zero (the source tests its JS truthiness; a zero
EMA7 falls back to immediate entry).  Under that guard: with no pending
direction, a present entry reason only records the pending direction and
reason and emits nothing; with a pending direction, the trigger target is
ema7·(1+reversionPct/100) and the entry fires exactly when close ≤ target
(pending LONG) or close ≥ target (pending SHORT), opening the pending side
at close with the recorded reason suffixed "(回归EMA7触发)"; otherwise an
opposite entry reason flips the pending direction and nothing is emitted. -/
theorem C4_reversion_amended (candles : List Candle)
    (config : StrategyConfig) (pos : PositionState) (stats : TradeStats)
    (dateKey nowIso : String) (nowMs : ℕ) (h50 : 50 ≤ candles.length)
    (hact : config.isActive = true) (e7 e25 e99 : ℚ)
    (h7 : (candles.getLastD dummyCandle).ema7 = some e7)
    (h25 : (candles.getLastD dummyCandle).ema25 = some e25)
    (h99 : (candles.getLastD dummyCandle).ema99 = some e99)
    (hflat : pos.direction = Direction.FLAT)
    (hopen : (resetStats stats dateKey).dailyTradeCount <
      config.maxDailyTrades)
    (hman : config.manualTakeover = false)
    (hrev : config.useReversionEntry = true) (hz : e7 ≠ 0) :
    let last := candles.getLastD dummyCandle
    let prev := candles.dropLast.getLastD dummyCandle
    let stats1 := resetStats stats dateKey
    let longR := longEntryReason config last prev e7 e25 e99
    let shortR := shortEntryReason config last prev e7 e25 e99
    let qty := config.tradeAmount / last.close
    let res := evaluateStrategy candles config pos stats dateKey nowIso nowMs
    (pos.pendingReversion = none →
      res = if longR ≠ "" then
              ⟨{ pos with pendingReversion := some Direction.LONG,
                          pendingReversionReason := longR }, stats1, []⟩
            else if shortR ≠ "" then
              ⟨{ pos with pendingReversion := some Direction.SHORT,
                          pendingReversionReason := shortR }, stats1, []⟩
            else ⟨pos, stats1, []⟩) ∧
    (∀ prd, pos.pendingReversion = some prd →
      ((prd = Direction.LONG ∧
          last.close ≤ e7 * (1 + config.reversionPct / 100)) ∨
       (prd = Direction.SHORT ∧
          e7 * (1 + config.reversionPct / 100) ≤ last.close) →
        res = ⟨openPos prd qty last nowMs, stats1,
          [createPayload config nowIso last.close
            (if prd = Direction.LONG then "buy" else "sell") (dirLower prd)
            (pos.pendingReversionReason ++ " (回归EMA7触发)")
            config.tradeAmount qty]⟩) ∧
      (¬((prd = Direction.LONG ∧
          last.close ≤ e7 * (1 + config.reversionPct / 100)) ∨
         (prd = Direction.SHORT ∧
          e7 * (1 + config.reversionPct / 100) ≤ last.close)) →
        res = ⟨(if shortR ≠ "" ∧ prd = Direction.LONG then
                  { pos with pendingReversion := some Direction.SHORT,
                             pendingReversionReason := shortR }
                else if longR ≠ "" ∧ prd = Direction.SHORT then
                  { pos with pendingReversion := some Direction.LONG,
                             pendingReversionReason := longR }
                else pos), stats1, []⟩)) := by
  intro last prev stats1 longR shortR qty res
  have hne : ¬(candles.length < 50 ∨ ¬config.isActive) := by
    simp [hact]; omega
  have hres : res = entrySection config last nowIso nowMs e7 longR shortR
      (decide (stats1.dailyTradeCount < config.maxDailyTrades)) pos stats1
      [] := by
    show evaluateStrategy candles config pos stats dateKey nowIso nowMs = _
    unfold evaluateStrategy
    rw [if_neg hne]
    simp only [h7, h25, h99]
    rw [if_neg (by simp [hflat])]
  rw [hres]
  unfold entrySection
  rw [if_pos ⟨hflat, by simpa using hopen, by simp [hman]⟩]
  dsimp only []
  rw [if_pos ⟨hrev, hz⟩]
  constructor
  · intro hpr
    rw [hpr]
  · intro prd hpr
    rw [hpr]
    dsimp only []
    constructor
    · intro htr
      rw [if_pos htr]
      simp
    · intro htr
      rw [if_neg htr]

/-- C4 counterexample: with reversion mode on, a FLAT position, an open
cap, no manual takeover, no pending direction and a firing long entry
reason, but the last EMA7 equal to zero, the code opens immediately (one
order, position LONG) instead of recording a pending reversion with no
order as the claim states. -/
theorem C4_counterexample :
    exCfgReversion.useReversionEntry = true ∧
    INITIAL_POS_STATE.pendingReversion = none ∧
    longEntryReason exCfgReversion exLastZero exPrevZero 0 (-1) (-2) =
      "EMA7上穿25开多" ∧
    (evaluateStrategy exCandlesZero exCfgReversion INITIAL_POS_STATE exStats
      "2026-01-01" "t" 0).actions.length = 1 ∧
    (evaluateStrategy exCandlesZero exCfgReversion INITIAL_POS_STATE exStats
      "2026-01-01" "t" 0).newPositionState.pendingReversion = none ∧
    (evaluateStrategy exCandlesZero exCfgReversion INITIAL_POS_STATE exStats
      "2026-01-01" "t" 0).newPositionState.direction = Direction.LONG := by
  exact ⟨by decide, by decide, by decide, by decide, by decide, by decide⟩

/-- C4 witness: spec scenario 5's first tick through the amended theorem —
the long entry reason is recorded as pending LONG with no order. -/
theorem C4_witness :
    evaluateStrategy exCandlesCross exCfgReversion INITIAL_POS_STATE exStats
        "2026-01-01" "t" 0 =
      ⟨{ INITIAL_POS_STATE with
            pendingReversion := some Direction.LONG,
            pendingReversionReason := "EMA7上穿25开多" }, exStats, []⟩ := by
  have h := (C4_reversion_amended exCandlesCross exCfgReversion
    INITIAL_POS_STATE exStats "2026-01-01" "t" 0 (by decide) (by decide)
    100 3 0 (by decide) (by decide) (by decide) (by decide) (by decide)
    (by decide) (by decide) (by decide)).1 (by decide)
  rw [h]
  decide

/-- Flat-form characterization of the full-close branch: the reverse fires
exactly when useReverse ∧ signal-exit ∧ ¬manualTakeover together with the
direction-matching reverse flag and the daily cap; otherwise the position
goes FLAT.  The close order for the remainder precedes the reverse order. -/
theorem fullCloseExec_eq (config : StrategyConfig) (last : Candle)
    (nowIso : String) (nowMs : ℕ) (isLong : Bool) (exitL exitS : String)
    (canOpen : Bool) (pos3 : PositionState) (stats : TradeStats)
    (acts1 : List WebhookPayload) (fc : String) :
    fullCloseExec config last nowIso nowMs isLong exitL exitS canOpen pos3
      stats acts1 fc =
    { done := true
      pos :=
        if (config.useReverse ∧ ((isLong ∧ fc = exitL) ∨ (¬isLong ∧ fc = exitS)) ∧
            ¬config.manualTakeover) ∧ (isLong ∧ config.reverseLongToShort ∧ canOpen) then
          openPos Direction.SHORT (config.tradeAmount / last.close) last nowMs
        else if (config.useReverse ∧ ((isLong ∧ fc = exitL) ∨ (¬isLong ∧ fc = exitS)) ∧
            ¬config.manualTakeover) ∧ (¬isLong ∧ config.reverseShortToLong ∧ canOpen) then
          openPos Direction.LONG (config.tradeAmount / last.close) last nowMs
        else emptyPos
      stats := ⟨stats.dailyTradeCount + 1, stats.lastTradeDate⟩
      actions := acts1 ++
        (if eps < pos3.remainingQuantity then
          [createPayload config nowIso last.close
            (if isLong then "sell" else "buy") "flat" fc
            (pos3.remainingQuantity * last.close) pos3.remainingQuantity]
         else []) ++
        (if (config.useReverse ∧ ((isLong ∧ fc = exitL) ∨ (¬isLong ∧ fc = exitS)) ∧
            ¬config.manualTakeover) ∧ (isLong ∧ config.reverseLongToShort ∧ canOpen) then
          [createPayload config nowIso last.close "sell" "short" "反手开空"
            config.tradeAmount (config.tradeAmount / last.close)]
         else if (config.useReverse ∧ ((isLong ∧ fc = exitL) ∨ (¬isLong ∧ fc = exitS)) ∧
            ¬config.manualTakeover) ∧ (¬isLong ∧ config.reverseShortToLong ∧ canOpen) then
          [createPayload config nowIso last.close "buy" "long" "反手开多"
            config.tradeAmount (config.tradeAmount / last.close)]
         else []) } := by
  unfold fullCloseExec
  cases isLong <;> dsimp only [] <;> split_ifs <;> simp_all [openPos]

/-- C1 (amended): when the Evaluation Core decides a full close of a
non-FLAT position, the result is exactly: the partial-close orders made so
far, then one full-close order for the remainder iff it still exceeds 10⁻⁶,
then — only if useReverse holds, the close reason is the direction's signal
exit reason, manualTakeover is off, the daily cap is open, AND the
direction-matching reverse flag (reverseLongToShort for LONG,
reverseShortToLong for SHORT) is set — one reverse-open order; the daily
count is incremented once; the returned position is the fresh opposite-side
position when the reverse fired and FLAT otherwise; entries are not
evaluated on this tick. -/
theorem C1_full_close_amended (candles : List Candle)
    (config : StrategyConfig) (pos : PositionState) (stats : TradeStats)
    (dateKey nowIso : String) (nowMs : ℕ) (h50 : 50 ≤ candles.length)
    (hact : config.isActive = true) (e7 e25 e99 : ℚ)
    (h7 : (candles.getLastD dummyCandle).ema7 = some e7)
    (h25 : (candles.getLastD dummyCandle).ema25 = some e25)
    (h99 : (candles.getLastD dummyCandle).ema99 = some e99)
    (hdir : pos.direction ≠ Direction.FLAT)
    (hfc : (exitPrep config (candles.getLastD dummyCandle) nowIso
      (exitLongReason config (candles.getLastD dummyCandle)
        (candles.dropLast.getLastD dummyCandle) e7 e25 e99)
      (exitShortReason config (candles.getLastD dummyCandle)
        (candles.dropLast.getLastD dummyCandle) e7 e25 e99) pos).2.1 ≠ "") :
    let last := candles.getLastD dummyCandle
    let prev := candles.dropLast.getLastD dummyCandle
    let stats1 := resetStats stats dateKey
    let exitL := exitLongReason config last prev e7 e25 e99
    let exitS := exitShortReason config last prev e7 e25 e99
    let isLong := decide (pos.direction = Direction.LONG)
    let canOpen := decide (stats1.dailyTradeCount < config.maxDailyTrades)
    let pr := exitPrep config last nowIso exitL exitS pos
    let fc := pr.2.1
    let revLong := (config.useReverse ∧ ((isLong ∧ fc = exitL) ∨
        (¬isLong ∧ fc = exitS)) ∧ ¬config.manualTakeover) ∧
      (isLong ∧ config.reverseLongToShort ∧ canOpen)
    let revShort := (config.useReverse ∧ ((isLong ∧ fc = exitL) ∨
        (¬isLong ∧ fc = exitS)) ∧ ¬config.manualTakeover) ∧
      (¬isLong ∧ config.reverseShortToLong ∧ canOpen)
    evaluateStrategy candles config pos stats dateKey nowIso nowMs =
      { newPositionState :=
          if revLong then
            openPos Direction.SHORT (config.tradeAmount / last.close) last
              nowMs
          else if revShort then
            openPos Direction.LONG (config.tradeAmount / last.close) last
              nowMs
          else emptyPos
        newTradeStats := ⟨stats1.dailyTradeCount + 1, stats1.lastTradeDate⟩
        actions := pr.2.2 ++
          (if eps < pr.1.remainingQuantity then
            [createPayload config nowIso last.close
              (if isLong then "sell" else "buy") "flat" fc
              (pr.1.remainingQuantity * last.close) pr.1.remainingQuantity]
           else []) ++
          (if revLong then
            [createPayload config nowIso last.close "sell" "short" "反手开空"
              config.tradeAmount (config.tradeAmount / last.close)]
           else if revShort then
            [createPayload config nowIso last.close "buy" "long" "反手开多"
              config.tradeAmount (config.tradeAmount / last.close)]
           else []) } := by
  intro last prev stats1 exitL exitS isLong canOpen pr fc revLong revShort
  have hne : ¬(candles.length < 50 ∨ ¬config.isActive) := by
    simp [hact]; omega
  unfold evaluateStrategy
  rw [if_neg hne]
  simp only [h7, h25, h99]
  rw [if_pos hdir]
  unfold exitSection
  dsimp only []
  rw [if_pos hfc, fullCloseExec_eq]
  dsimp only []
  rw [if_pos rfl]

/-- C1 counterexample: a LONG position closed by its signal exit with
useReverse on, manualTakeover off and the daily cap open, but
reverseLongToShort off: the claim says the opposite side is opened, yet the
code returns FLAT with only the single full-close order. -/
theorem C1_counterexample :
    exCfgNoRevFlag.useReverse = true ∧
    exCfgNoRevFlag.manualTakeover = false ∧
    exStats.dailyTradeCount < exCfgNoRevFlag.maxDailyTrades ∧
    (exitPrep exCfgNoRevFlag exLastDown "t"
      (exitLongReason exCfgNoRevFlag exLastDown exPrevDown 1 2 0)
      (exitShortReason exCfgNoRevFlag exLastDown exPrevDown 1 2 0)
      exPosLong).2.1 = "EMA7下穿25平多" ∧
    (evaluateStrategy exCandlesDown exCfgNoRevFlag exPosLong exStats
      "2026-01-01" "t" 0).newPositionState.direction = Direction.FLAT ∧
    (evaluateStrategy exCandlesDown exCfgNoRevFlag exPosLong exStats
      "2026-01-01" "t" 0).actions.length = 1 := by
  exact ⟨by decide, by decide, by decide, by decide, by decide, by decide⟩

/-- C1 witness: spec scenario 4 through the amended theorem — the down
cross closes the long (one flat order), the reverse flag being set opens a
short (second order), and the daily count grows by one. -/
theorem C1_witness :
    (evaluateStrategy exCandlesDown exCfgRevFlag exPosLong exStats
      "2026-01-01" "t" 0).newPositionState.direction = Direction.SHORT ∧
    (evaluateStrategy exCandlesDown exCfgRevFlag exPosLong exStats
      "2026-01-01" "t" 0).newTradeStats.dailyTradeCount = 1 ∧
    (evaluateStrategy exCandlesDown exCfgRevFlag exPosLong exStats
      "2026-01-01" "t" 0).actions.length = 2 := by
  have h := C1_full_close_amended exCandlesDown exCfgRevFlag exPosLong
    exStats "2026-01-01" "t" 0 (by decide) (by decide) 1 2 0 (by decide)
    (by decide) (by decide) (by decide) (by decide)
  rw [h]
  exact ⟨by decide, by decide, by decide⟩

/-- Inserting into the sort accumulator is a permutation of consing. -/
theorem insertByTime_perm (c : Candle) (l : List Candle) :
    (insertByTime c l).Perm (c :: l) := by
  induction l with
  | nil => simp [insertByTime]
  | cons d ds ih =>
    unfold insertByTime
    split
    · exact List.Perm.refl _
    · exact (ih.cons d).trans (List.Perm.swap c d ds)

/-- sortByTime permutes its input. -/
theorem sortByTime_perm (l : List Candle) : (sortByTime l).Perm l := by
  induction l with
  | nil => simp [sortByTime]
  | cons c cs ih =>
    exact (insertByTime_perm c (sortByTime cs)).trans (ih.cons c)

/-- Insertion preserves the sortedness of the accumulator. -/
theorem insertByTime_pairwise (c : Candle) (l : List Candle)
    (h : l.Pairwise (fun a b => a.time ≤ b.time)) :
    (insertByTime c l).Pairwise (fun a b => a.time ≤ b.time) := by
  induction l with
  | nil => simp [insertByTime]
  | cons d ds ih =>
    rw [List.pairwise_cons] at h
    unfold insertByTime
    split
    case isTrue hlt =>
      refine List.pairwise_cons.mpr ⟨?_, List.pairwise_cons.mpr ⟨h.1, h.2⟩⟩
      intro b hb
      rcases List.mem_cons.mp hb with rfl | hb
      · exact le_of_lt hlt
      · exact le_trans (le_of_lt hlt) (h.1 b hb)
    case isFalse hge =>
      refine List.pairwise_cons.mpr ⟨?_, ih h.2⟩
      intro b hb
      rcases List.mem_cons.mp ((insertByTime_perm c ds).mem_iff.mp hb) with
        rfl | hb'
      · exact le_of_not_lt hge
      · exact h.1 b hb'

/-- sortByTime sorts by open time (non-strictly). -/
theorem sortByTime_pairwise (l : List Candle) :
    (sortByTime l).Pairwise (fun a b => a.time ≤ b.time) := by
  induction l with
  | nil => simp [sortByTime]
  | cons c cs ih => exact insertByTime_pairwise c (sortByTime cs) ih

/-- A non-strictly sorted candle list with pairwise-distinct times is
strictly sorted. -/
theorem pairwise_lt_of_le_nodup (l : List Candle)
    (hle : l.Pairwise (fun a b => a.time ≤ b.time))
    (hnd : (l.map Candle.time).Nodup) :
    l.Pairwise (fun a b => a.time < b.time) := by
  induction l with
  | nil => simp
  | cons a as ih =>
    rw [List.pairwise_cons] at hle ⊢
    rw [List.map_cons, List.nodup_cons] at hnd
    refine ⟨?_, ih hle.2 hnd.2⟩
    intro b hb
    refine lt_of_le_of_ne (hle.1 b hb) (fun he => hnd.1 ?_)
    rw [he]
    exact List.mem_map_of_mem Candle.time hb

/-- Sorting keeps the multiset of open times, hence their distinctness. -/
theorem sortByTime_times_nodup (l : List Candle)
    (h : (l.map Candle.time).Nodup) :
    ((sortByTime l).map Candle.time).Nodup :=
  ((sortByTime_perm l).map Candle.time).nodup_iff.mpr h

/-- The trimmed buffer is capped at 5,000 entries. -/
theorem trimToMax_length (l : List Candle) : (trimToMax l).length ≤ 5000 := by
  unfold trimToMax
  split
  · rw [List.length_drop]
    omega
  · omega

/-- Trimming (a drop) preserves any pairwise relation. -/
theorem trimToMax_pairwise {R : Candle → Candle → Prop} (l : List Candle)
    (h : l.Pairwise R) : (trimToMax l).Pairwise R := by
  unfold trimToMax
  split
  · exact h.sublist (List.drop_sublist _ _)
  · exact h

/-- The dedup fold keeps its keys distinct and every stored candle's time
equal to its key. -/
theorem dedup_fold_keys (l : List Candle) :
    ∀ m : List (ℕ × Candle), (m.map Prod.fst).Nodup →
      (∀ p ∈ m, p.2.time = p.1) →
      ((l.foldl mapSetByTime m).map Prod.fst).Nodup ∧
      (∀ p ∈ l.foldl mapSetByTime m, p.2.time = p.1) := by
  induction l with
  | nil => exact fun m h1 h2 => ⟨h1, h2⟩
  | cons c cs ih =>
    intro m h1 h2
    rw [List.foldl_cons]
    apply ih
    · unfold mapSetByTime
      split
      case isTrue _ =>
        have hkeys : ((m.map fun p => if p.1 = c.time then (p.1, c) else p).map
            Prod.fst) = m.map Prod.fst := by
          rw [List.map_map]
          apply List.map_congr_left
          intro p _
          by_cases h : p.1 = c.time <;> simp [h]
        rw [hkeys]
        exact h1
      case isFalse hno =>
        rw [List.map_append]
        rw [List.nodup_append]
        refine ⟨h1, by simp, ?_⟩
        intro a ha hb
        simp only [List.map_cons, List.map_nil, List.mem_singleton] at hb
        subst hb
        rcases List.mem_map.mp ha with ⟨p, hp, hfst⟩
        exact hno (by
          simp only [List.any_eq_true, decide_eq_true_eq]
          exact ⟨p, hp, hfst⟩)
    · unfold mapSetByTime
      split
      case isTrue _ =>
        intro p hp
        rcases List.mem_map.mp hp with ⟨q, hq, rfl⟩
        by_cases h : q.1 = c.time <;> simp [h, h2 q hq]
      case isFalse _ =>
        intro p hp
        rcases List.mem_append.mp hp with hp' | hp'
        · exact h2 p hp'
        · rcases List.mem_singleton.mp hp' with rfl
          rfl

/-- Deduplication by open time yields pairwise-distinct times. -/
theorem dedupByTime_times_nodup (l : List Candle) :
    ((dedupByTime l).map Candle.time).Nodup := by
  have h := dedup_fold_keys l [] (by simp) (by simp)
  unfold dedupByTime
  have he : ((l.foldl mapSetByTime []).map Prod.snd).map Candle.time =
      (l.foldl mapSetByTime []).map Prod.fst := by
    rw [List.map_map]
    exact List.map_congr_left (fun p hp => h.2 p hp)
  rw [he]
  exact h.1

/-- C9 (amended): the shard buffer invariant — at most 5,000 entries,
strictly increasing open times — holds after the fresh-start initialize
unconditionally; after the disk-branch initialize provided the persisted
candles have distinct times and the incremental fetch is strictly
increasing and entirely later than the persisted data; and it is preserved
by processNewCandle provided the live candle's open time is not earlier
than the buffered tail (the upstream ordering guarantee). -/
theorem C9_buffer_invariants_amended :
    (∀ allFetched : List Candle, BufferInv (initializeFresh allFetched)) ∧
    (∀ localData newData : List Candle,
      (localData.map Candle.time).Nodup →
      newData.Pairwise (fun a b => a.time < b.time) →
      (∀ lc ∈ localData, ∀ n ∈ newData, lc.time < n.time) →
      BufferInv (initializeFromDisk localData newData)) ∧
    (∀ (buf : List Candle) (c : Candle), BufferInv buf →
      (∀ lb, buf.getLast? = some lb → lb.time ≤ c.time) →
      BufferInv (processNewCandle buf c)) := by
  refine ⟨?_, ?_, ?_⟩
  · intro f
    refine ⟨trimToMax_length _, trimToMax_pairwise _ ?_⟩
    exact pairwise_lt_of_le_nodup _ (sortByTime_pairwise _)
      (sortByTime_times_nodup _ (dedupByTime_times_nodup f))
  · intro localData newData hnd hnew hcross
    refine ⟨trimToMax_length _, trimToMax_pairwise _ ?_⟩
    rw [List.pairwise_append]
    refine ⟨pairwise_lt_of_le_nodup _ (sortByTime_pairwise _)
      (sortByTime_times_nodup _ hnd), hnew, ?_⟩
    intro a ha b hb
    exact hcross a ((sortByTime_perm localData).mem_iff.mp ha) b hb
  · intro buf c hinv hord
    rcases hinv with ⟨_, hpw⟩
    rcases hl : buf.getLast? with _ | lb
    · have hbuf : buf = [] := by
        cases buf with
        | nil => rfl
        | cons x xs =>
          rw [List.getLast?_eq_getLast _ (by simp)] at hl
          cases hl
      subst hbuf
      exact ⟨trimToMax_length _, trimToMax_pairwise _ (by simp)⟩
    · have hne : buf ≠ [] := by
        intro e
        subst e
        cases hl
      have hlb : buf.getLast hne = lb := by
        rw [List.getLast?_eq_getLast _ hne] at hl
        exact Option.some.inj hl
      have hdecomp : buf.dropLast ++ [lb] = buf := by
        rw [← hlb]
        exact List.dropLast_append_getLast hne
      have hsplit := List.pairwise_append.mp (hdecomp ▸ hpw)
      have hle : lb.time ≤ c.time := hord lb hl
      have hstep : processNewCandle buf c =
          trimToMax (if lb.time = c.time then buf.dropLast ++ [c]
                     else buf ++ [c]) := by
        unfold processNewCandle
        rw [hl]
      rw [hstep]
      by_cases heq : lb.time = c.time
      · rw [if_pos heq]
        refine ⟨trimToMax_length _, trimToMax_pairwise _ ?_⟩
        rw [List.pairwise_append]
        refine ⟨hsplit.1, by simp, ?_⟩
        intro a ha b hb
        rcases List.mem_singleton.mp hb with rfl
        rw [← heq]
        exact hsplit.2.2 a ha lb (by simp)
      · rw [if_neg heq]
        have hlt : lb.time < c.time := lt_of_le_of_ne hle heq
        refine ⟨trimToMax_length _, trimToMax_pairwise _ ?_⟩
        rw [List.pairwise_append]
        refine ⟨hpw, by simp, ?_⟩
        intro a ha b hb
        rcases List.mem_singleton.mp hb with rfl
        rcases List.mem_append.mp (by rw [hdecomp]; exact ha :
            a ∈ buf.dropLast ++ [lb]) with ha' | ha'
        · exact lt_trans (hsplit.2.2 a ha' lb (by simp)) hlt
        · rcases List.mem_singleton.mp ha' with rfl
          exact hlt

/-- C9 witness: the fresh-start initialize on an unsorted, duplicated
fetch, the disk-branch initialize, and a live append, all at concrete
inputs through the amended theorem. -/
theorem C9_witness :
    BufferInv (initializeFresh [exCandleT5, exCandleT3, exCandleT5]) ∧
    BufferInv (initializeFromDisk [exCandleT3] [exCandleT5]) ∧
    BufferInv (processNewCandle [exCandleT3] exCandleT5) := by
  refine ⟨C9_buffer_invariants_amended.1 [exCandleT5, exCandleT3, exCandleT5],
    C9_buffer_invariants_amended.2.1 [exCandleT3] [exCandleT5] (by decide)
      (by decide) (by decide), ?_⟩
  refine C9_buffer_invariants_amended.2.2 [exCandleT3] exCandleT5
    (by decide) ?_
  intro lb h
  injection h with h2
  rw [← h2]
  decide

/-- hasKey is key membership. -/
theorem hasKey_iff_mem_keys (m : List (ℕ × Candle)) (k : ℕ) :
    hasKey m k = true ↔ k ∈ m.map Prod.fst := by
  simp only [hasKey, List.any_eq_true, decide_eq_true_eq, List.mem_map]

/-- Updating an entry in place leaves the key sequence unchanged. -/
theorem updateEntry_keys (m : List (ℕ × Candle)) (k : ℕ)
    (f : Candle → Candle) :
    (updateEntry m k f).map Prod.fst = m.map Prod.fst := by
  unfold updateEntry
  rw [List.map_map]
  apply List.map_congr_left
  intro p _
  by_cases h : p.1 = k <;> simp [h]

/-- Membership in an updated association list. -/
theorem mem_updateEntry (m : List (ℕ × Candle)) (k : ℕ) (f : Candle → Candle)
    (p : ℕ × Candle) :
    p ∈ updateEntry m k f ↔
      ∃ q ∈ m, p = if q.1 = k then (q.1, f q.2) else q := by
  unfold updateEntry
  rw [List.mem_map]
  constructor
  · rintro ⟨q, hq, h⟩
    exact ⟨q, hq, h.symm⟩
  · rintro ⟨q, hq, h⟩
    exact ⟨q, hq, h.symm⟩

/-- Invariant preservation for one iteration of the resampling loop: keys
stay distinct; every entry's time is its key, a multiple of the target
width; every entry's high/low bound the highs/lows of the processed base
candles of its bucket; an entry is closed iff some processed base candle of
its bucket closes it; and each processed base candle's bucket has an
entry. -/
theorem resampleStep_inv (tMs bMs : ℕ) (done : List Candle)
    (m : List (ℕ × Candle)) (c : Candle)
    (h1 : (m.map Prod.fst).Nodup)
    (h2 : ∀ p ∈ m, p.2.time = p.1 ∧ tMs ∣ p.1)
    (h3 : ∀ p ∈ m, ∀ b ∈ done, b.time / tMs * tMs = p.1 →
      b.high ≤ p.2.high ∧ p.2.low ≤ b.low)
    (h4 : ∀ p ∈ m, (p.2.isClosed = true ↔ ∃ b ∈ done,
      b.time / tMs * tMs = p.1 ∧ b.isClosed = true ∧
      p.1 + tMs ≤ b.time + bMs))
    (h5 : ∀ b ∈ done, hasKey m (b.time / tMs * tMs) = true) :
    ((resampleStep tMs bMs m c).map Prod.fst).Nodup ∧
    (∀ p ∈ resampleStep tMs bMs m c, p.2.time = p.1 ∧ tMs ∣ p.1) ∧
    (∀ p ∈ resampleStep tMs bMs m c, ∀ b ∈ done ++ [c],
      b.time / tMs * tMs = p.1 → b.high ≤ p.2.high ∧ p.2.low ≤ b.low) ∧
    (∀ p ∈ resampleStep tMs bMs m c, (p.2.isClosed = true ↔
      ∃ b ∈ done ++ [c], b.time / tMs * tMs = p.1 ∧ b.isClosed = true ∧
      p.1 + tMs ≤ b.time + bMs)) ∧
    (∀ b ∈ done ++ [c],
      hasKey (resampleStep tMs bMs m c) (b.time / tMs * tMs) = true) := by
  have hdvd : tMs ∣ c.time / tMs * tMs := Dvd.intro_left _ rfl
  unfold resampleStep
  dsimp only []
  by_cases hkey : hasKey m (c.time / tMs * tMs) = true
  · rw [if_pos hkey]
    refine ⟨?_, ?_, ?_, ?_, ?_⟩
    · rw [updateEntry_keys]
      exact h1
    · intro p hp
      rcases (mem_updateEntry ..).mp hp with ⟨q, hq, rfl⟩
      by_cases hq1 : q.1 = c.time / tMs * tMs
      · rw [if_pos hq1]
        exact ⟨(h2 q hq).1, by rw [hq1]; exact hdvd⟩
      · rw [if_neg hq1]
        exact h2 q hq
    · intro p hp b hb hbk
      rcases (mem_updateEntry ..).mp hp with ⟨q, hq, rfl⟩
      by_cases hq1 : q.1 = c.time / tMs * tMs
      · rw [if_pos hq1] at hbk ⊢
        rcases List.mem_append.mp hb with hbd | hbc
        · have h := h3 q hq b hbd hbk
          exact ⟨le_trans h.1 (le_max_left _ _),
            le_trans (min_le_left _ _) h.2⟩
        · rcases List.mem_singleton.mp hbc with rfl
          exact ⟨le_max_right _ _, min_le_right _ _⟩
      · rw [if_neg hq1] at hbk ⊢
        rcases List.mem_append.mp hb with hbd | hbc
        · exact h3 q hq b hbd hbk
        · rcases List.mem_singleton.mp hbc with rfl
          exact absurd hbk.symm hq1
    · intro p hp
      rcases (mem_updateEntry ..).mp hp with ⟨q, hq, rfl⟩
      by_cases hq1 : q.1 = c.time / tMs * tMs
      · rw [if_pos hq1]
        constructor
        · intro hcl
          have hcl' : (if c.isClosed = true ∧
              c.time / tMs * tMs + tMs ≤ c.time + bMs then true
              else q.2.isClosed) = true := hcl
          by_cases hc : c.isClosed = true ∧
              c.time / tMs * tMs + tMs ≤ c.time + bMs
          · refine ⟨c, List.mem_append.mpr (Or.inr (by simp)), hq1.symm,
              hc.1, ?_⟩
            rw [hq1]
            exact hc.2
          · rw [if_neg hc] at hcl'
            rcases (h4 q hq).mp hcl' with ⟨b, hbd, hbk, hbc, hbt⟩
            exact ⟨b, List.mem_append.mpr (Or.inl hbd), hbk, hbc, hbt⟩
        · rintro ⟨b, hb, hbk, hbc, hbt⟩
          show (if c.isClosed = true ∧
            c.time / tMs * tMs + tMs ≤ c.time + bMs then true
            else q.2.isClosed) = true
          rcases List.mem_append.mp hb with hbd | hbc'
          · split
            · rfl
            · exact (h4 q hq).mpr ⟨b, hbd, hbk, hbc, hbt⟩
          · rcases List.mem_singleton.mp hbc' with rfl
            have hbt' : q.1 + tMs ≤ b.time + bMs := hbt
            rw [hq1] at hbt'
            rw [if_pos ⟨hbc, hbt'⟩]
      · rw [if_neg hq1]
        rw [h4 q hq]
        constructor
        · rintro ⟨b, hbd, hbk, hbc, hbt⟩
          exact ⟨b, List.mem_append.mpr (Or.inl hbd), hbk, hbc, hbt⟩
        · rintro ⟨b, hb, hbk, hbc, hbt⟩
          rcases List.mem_append.mp hb with hbd | hbc'
          · exact ⟨b, hbd, hbk, hbc, hbt⟩
          · rcases List.mem_singleton.mp hbc' with rfl
            exact absurd hbk.symm hq1
    · intro b hb
      rw [hasKey_iff_mem_keys, updateEntry_keys]
      rcases List.mem_append.mp hb with hbd | hbc
      · exact (hasKey_iff_mem_keys ..).mp (h5 b hbd)
      · rcases List.mem_singleton.mp hbc with rfl
        exact (hasKey_iff_mem_keys ..).mp hkey
  · rw [if_neg hkey]
    have hnotin : c.time / tMs * tMs ∉ m.map Prod.fst := by
      intro h
      exact hkey ((hasKey_iff_mem_keys ..).mpr h)
    have hnodone : ∀ b ∈ done, b.time / tMs * tMs ≠ c.time / tMs * tMs := by
      intro b hbd he
      exact hkey (he ▸ h5 b hbd)
    have hmq : ∀ q ∈ m, q.1 ≠ c.time / tMs * tMs := by
      intro q hq he
      exact hnotin (he ▸ List.mem_map_of_mem Prod.fst hq)
    refine ⟨?_, ?_, ?_, ?_, ?_⟩
    · rw [updateEntry_keys, List.map_append, List.nodup_append]
      refine ⟨h1, by simp, ?_⟩
      intro a ha hb
      simp only [List.map_cons, List.map_nil, List.mem_singleton] at hb
      subst hb
      exact hnotin ha
    · intro p hp
      rcases (mem_updateEntry ..).mp hp with ⟨q, hq, rfl⟩
      rcases List.mem_append.mp hq with hqm | hqs
      · rw [if_neg (hmq q hqm)]
        exact h2 q hqm
      · rcases List.mem_singleton.mp hqs with rfl
        rw [if_pos rfl]
        exact ⟨rfl, hdvd⟩
    · intro p hp b hb hbk
      rcases (mem_updateEntry ..).mp hp with ⟨q, hq, rfl⟩
      rcases List.mem_append.mp hq with hqm | hqs
      · rw [if_neg (hmq q hqm)] at hbk ⊢
        rcases List.mem_append.mp hb with hbd | hbc
        · exact h3 q hqm b hbd hbk
        · rcases List.mem_singleton.mp hbc with rfl
          exact absurd hbk.symm (hmq q hqm)
      · rcases List.mem_singleton.mp hqs with rfl
        rw [if_pos rfl] at hbk ⊢
        rcases List.mem_append.mp hb with hbd | hbc
        · exact absurd hbk (hnodone b hbd)
        · rcases List.mem_singleton.mp hbc with rfl
          exact ⟨le_max_right _ _, min_le_right _ _⟩
    · intro p hp
      rcases (mem_updateEntry ..).mp hp with ⟨q, hq, rfl⟩
      rcases List.mem_append.mp hq with hqm | hqs
      · rw [if_neg (hmq q hqm), h4 q hqm]
        constructor
        · rintro ⟨b, hbd, hbk, hbc, hbt⟩
          exact ⟨b, List.mem_append.mpr (Or.inl hbd), hbk, hbc, hbt⟩
        · rintro ⟨b, hb, hbk, hbc, hbt⟩
          rcases List.mem_append.mp hb with hbd | hbc'
          · exact ⟨b, hbd, hbk, hbc, hbt⟩
          · rcases List.mem_singleton.mp hbc' with rfl
            exact absurd hbk.symm (hmq q hqm)
      · rcases List.mem_singleton.mp hqs with rfl
        rw [if_pos rfl]
        constructor
        · intro hcl
          have hcl' : (if c.isClosed = true ∧
              c.time / tMs * tMs + tMs ≤ c.time + bMs then true
              else false) = true := hcl
          by_cases hc : c.isClosed = true ∧
              c.time / tMs * tMs + tMs ≤ c.time + bMs
          · exact ⟨c, List.mem_append.mpr (Or.inr (by simp)), rfl, hc.1,
              hc.2⟩
          · rw [if_neg hc] at hcl'
            cases hcl'
        · rintro ⟨b, hb, hbk, hbc, hbt⟩
          show (if c.isClosed = true ∧
            c.time / tMs * tMs + tMs ≤ c.time + bMs then true
            else false) = true
          rcases List.mem_append.mp hb with hbd | hbc'
          · exact absurd hbk (hnodone b hbd)
          · rcases List.mem_singleton.mp hbc' with rfl
            rw [if_pos ⟨hbc, hbt⟩]
    · intro b hb
      rw [hasKey_iff_mem_keys, updateEntry_keys, List.map_append]
      rcases List.mem_append.mp hb with hbd | hbc
      · exact List.mem_append.mpr
          (Or.inl ((hasKey_iff_mem_keys ..).mp (h5 b hbd)))
      · rcases List.mem_singleton.mp hbc with rfl
        exact List.mem_append.mpr (Or.inr (by simp))

/-- The resampling-loop invariant carried over a whole fold. -/
theorem resample_fold_inv (tMs bMs : ℕ) (l : List Candle) :
    ∀ (done : List Candle) (m : List (ℕ × Candle)),
      (m.map Prod.fst).Nodup →
      (∀ p ∈ m, p.2.time = p.1 ∧ tMs ∣ p.1) →
      (∀ p ∈ m, ∀ b ∈ done, b.time / tMs * tMs = p.1 →
        b.high ≤ p.2.high ∧ p.2.low ≤ b.low) →
      (∀ p ∈ m, (p.2.isClosed = true ↔ ∃ b ∈ done,
        b.time / tMs * tMs = p.1 ∧ b.isClosed = true ∧
        p.1 + tMs ≤ b.time + bMs)) →
      (∀ b ∈ done, hasKey m (b.time / tMs * tMs) = true) →
      ((l.foldl (resampleStep tMs bMs) m).map Prod.fst).Nodup ∧
      (∀ p ∈ l.foldl (resampleStep tMs bMs) m,
        p.2.time = p.1 ∧ tMs ∣ p.1) ∧
      (∀ p ∈ l.foldl (resampleStep tMs bMs) m, ∀ b ∈ done ++ l,
        b.time / tMs * tMs = p.1 → b.high ≤ p.2.high ∧ p.2.low ≤ b.low) ∧
      (∀ p ∈ l.foldl (resampleStep tMs bMs) m, (p.2.isClosed = true ↔
        ∃ b ∈ done ++ l, b.time / tMs * tMs = p.1 ∧ b.isClosed = true ∧
        p.1 + tMs ≤ b.time + bMs)) ∧
      (∀ b ∈ done ++ l, hasKey (l.foldl (resampleStep tMs bMs) m)
        (b.time / tMs * tMs) = true) := by
  induction l with
  | nil =>
    intro done m h1 h2 h3 h4 h5
    simp only [List.foldl_nil, List.append_nil]
    exact ⟨h1, h2, h3, h4, h5⟩
  | cons c cs ih =>
    intro done m h1 h2 h3 h4 h5
    rw [List.foldl_cons]
    obtain ⟨g1, g2, g3, g4, g5⟩ :=
      resampleStep_inv tMs bMs done m c h1 h2 h3 h4 h5
    have h := ih (done ++ [c]) (resampleStep tMs bMs m c) g1 g2 g3 g4 g5
    simpa [List.append_assoc] using h

/-- C6: every candle output by resampleCandles has a time divisible by the
target width; the output is strictly ascending in time; each output
candle's high dominates and low is dominated by every base candle of its
bucket; and it is closed exactly when some base candle of its bucket is
closed and reaches the bucket's end. -/
theorem C6_resample_invariants (baseCandles : List Candle)
    (targetInterval baseInterval : String) :
    (resampleCandles baseCandles targetInterval baseInterval).Pairwise
      (fun a b => a.time < b.time) ∧
    (∀ o ∈ resampleCandles baseCandles targetInterval baseInterval,
      intervalToMs targetInterval ∣ o.time ∧
      (∀ b ∈ baseCandles,
        b.time / intervalToMs targetInterval * intervalToMs targetInterval =
          o.time → b.high ≤ o.high ∧ o.low ≤ b.low) ∧
      (o.isClosed = true ↔ ∃ b ∈ baseCandles,
        b.time / intervalToMs targetInterval * intervalToMs targetInterval =
          o.time ∧ b.isClosed = true ∧
        o.time + intervalToMs targetInterval ≤
          b.time + intervalToMs baseInterval)) := by
  obtain ⟨g1, g2, g3, g4, g5⟩ := resample_fold_inv
    (intervalToMs targetInterval) (intervalToMs baseInterval) baseCandles
    [] [] (by simp) (by simp) (by simp) (by simp) (by simp)
  simp only [List.nil_append] at g3 g4 g5
  have hunf : resampleCandles baseCandles targetInterval baseInterval =
      sortByTime ((baseCandles.foldl
        (resampleStep (intervalToMs targetInterval)
          (intervalToMs baseInterval)) []).map Prod.snd) := rfl
  constructor
  · rw [hunf]
    apply pairwise_lt_of_le_nodup _ (sortByTime_pairwise _)
    apply sortByTime_times_nodup
    have he : ((baseCandles.foldl
        (resampleStep (intervalToMs targetInterval)
          (intervalToMs baseInterval)) []).map Prod.snd).map Candle.time =
        (baseCandles.foldl
        (resampleStep (intervalToMs targetInterval)
          (intervalToMs baseInterval)) []).map Prod.fst := by
      rw [List.map_map]
      exact List.map_congr_left (fun p hp => (g2 p hp).1)
    rw [he]
    exact g1
  · intro o ho
    rw [hunf] at ho
    rcases List.mem_map.mp ((sortByTime_perm _).mem_iff.mp ho) with
      ⟨p, hp, rfl⟩
    have htime := (g2 p hp).1
    refine ⟨by rw [htime]; exact (g2 p hp).2, ?_, ?_⟩
    · intro b hb hbk
      rw [htime] at hbk
      exact g3 p hp b hb hbk
    · rw [htime]
      exact g4 p hp

/-- C6 witness: the aggregated 2-minute series over two 1-minute candles is
strictly ascending in time, through the theorem at a concrete input. -/
theorem C6_witness :
    (resampleCandles [exBaseCandle, exBaseCandle2] "2m" "1m").Pairwise
      (fun a b => a.time < b.time) :=
  (C6_resample_invariants [exBaseCandle, exBaseCandle2] "2m" "1m").1

/-- The source's take-profit forEach agrees with the claim-side pass: same
skip conditions, quantity min(initialQty·qtyPct/100, remaining), hit marks
and exact decrement, and the orders it appends are the level payloads in
level order. -/
theorem tpLoop_eq_spec (config : StrategyConfig) (last : Candle)
    (nowIso : String) (isLong : Bool) (entryPrice : ℚ) :
    ∀ (levels : List TpLevel) (idx : ℕ) (pos : PositionState)
      (acts : List WebhookPayload),
    tpLoop config last nowIso isLong entryPrice levels idx (pos, acts) =
      ({ pos with
          remainingQuantity := (specTPPass isLong entryPrice last.high
            last.low pos.initialQuantity levels idx pos.remainingQuantity
            pos.tpLevelsHit).2.1
          tpLevelsHit := (specTPPass isLong entryPrice last.high last.low
            pos.initialQuantity levels idx pos.remainingQuantity
            pos.tpLevelsHit).2.2 },
       acts ++ (specTPPass isLong entryPrice last.high last.low
         pos.initialQuantity levels idx pos.remainingQuantity
         pos.tpLevelsHit).1.map
         (tpPartialPayload config nowIso last isLong pos.direction)) := by
  intro levels
  induction levels with
  | nil =>
    intro idx pos acts
    simp [tpLoop, specTPPass]
  | cons lv rest ih =>
    intro idx pos acts
    simp only [tpLoop, specTPPass]
    by_cases hskip : ¬lv.active = true ∨ getHit pos.tpLevelsHit idx = true ∨
        pos.remainingQuantity ≤ eps
    · rw [if_pos hskip, if_pos hskip]
      exact ih (idx + 1) pos acts
    · rw [if_neg hskip, if_neg hskip]
      by_cases hhit : (if isLong = true then
          (if isLong = true then entryPrice * (1 + lv.pct / 100)
           else entryPrice * (1 - lv.pct / 100)) ≤ last.high
        else last.low ≤ (if isLong = true then
          entryPrice * (1 + lv.pct / 100)
           else entryPrice * (1 - lv.pct / 100)))
      · rw [if_pos hhit, if_pos hhit]
        rw [ih (idx + 1) _ _]
        have hq : (0:ℚ) ≤ pos.remainingQuantity -
            min (pos.initialQuantity * (lv.qtyPct / 100))
              pos.remainingQuantity :=
          sub_nonneg.mpr (min_le_right _ _)
        rw [max_eq_right hq]
        simp [tpPartialPayload]
      · rw [if_neg hhit, if_neg hhit]
        exact ih (idx + 1) pos acts

/-- The source's stop-loss forEach agrees with the claim-side pass, with
the mirrored target and hit sides. -/
theorem slLoop_eq_spec (config : StrategyConfig) (last : Candle)
    (nowIso : String) (isLong : Bool) (entryPrice : ℚ) :
    ∀ (levels : List TpLevel) (idx : ℕ) (pos : PositionState)
      (acts : List WebhookPayload),
    slLoop config last nowIso isLong entryPrice levels idx (pos, acts) =
      ({ pos with
          remainingQuantity := (specSLPass isLong entryPrice last.high
            last.low pos.initialQuantity levels idx pos.remainingQuantity
            pos.slLevelsHit).2.1
          slLevelsHit := (specSLPass isLong entryPrice last.high last.low
            pos.initialQuantity levels idx pos.remainingQuantity
            pos.slLevelsHit).2.2 },
       acts ++ (specSLPass isLong entryPrice last.high last.low
         pos.initialQuantity levels idx pos.remainingQuantity
         pos.slLevelsHit).1.map
         (slPartialPayload config nowIso last isLong pos.direction)) := by
  intro levels
  induction levels with
  | nil =>
    intro idx pos acts
    simp [slLoop, specSLPass]
  | cons lv rest ih =>
    intro idx pos acts
    simp only [slLoop, specSLPass]
    by_cases hskip : ¬lv.active = true ∨ getHit pos.slLevelsHit idx = true ∨
        pos.remainingQuantity ≤ eps
    · rw [if_pos hskip, if_pos hskip]
      exact ih (idx + 1) pos acts
    · rw [if_neg hskip, if_neg hskip]
      by_cases hhit : (if isLong = true then
          last.low ≤ (if isLong = true then entryPrice * (1 - lv.pct / 100)
           else entryPrice * (1 + lv.pct / 100))
        else (if isLong = true then entryPrice * (1 - lv.pct / 100)
           else entryPrice * (1 + lv.pct / 100)) ≤ last.high)
      · rw [if_pos hhit, if_pos hhit]
        rw [ih (idx + 1) _ _]
        have hq : (0:ℚ) ≤ pos.remainingQuantity -
            min (pos.initialQuantity * (lv.qtyPct / 100))
              pos.remainingQuantity :=
          sub_nonneg.mpr (min_le_right _ _)
        rw [max_eq_right hq]
        simp [slPartialPayload]
      · rw [if_neg hhit, if_neg hhit]
        exact ih (idx + 1) pos acts

/-- The entry section is the identity on a non-FLAT position. -/
theorem entrySection_not_flat (config : StrategyConfig) (last : Candle)
    (nowIso : String) (nowMs : ℕ) (e7 : ℚ) (longR shortR : String)
    (canOpen : Bool) (pos : PositionState) (stats : TradeStats)
    (actions : List WebhookPayload) (h : pos.direction ≠ Direction.FLAT) :
    entrySection config last nowIso nowMs e7 longR shortR canOpen pos stats
      actions = ⟨pos, stats, actions⟩ := by
  unfold entrySection
  rw [if_neg (fun hc => h hc.1)]

/-- C3: with a non-FLAT position, multi-level mode on, trailing off and no
signal exit fired (fixed TP/SL cannot fire under multi-level mode), the
tick's orders are exactly the take-profit partials then the stop-loss
partials given by the claim-side passes — each a partial close of
min(initialQty·qtyPct/100, remaining) for a non-skipped hit level — and no
full-close or reverse order follows them; the position records the hit
marks and decremented remainder, unless the remainder fell to ≤ 10⁻⁶, in
which case the all-levels cleanup flattens the position (emitting nothing
further) and increments the daily count. -/
theorem C3_multi_level_ladder (candles : List Candle)
    (config : StrategyConfig) (pos : PositionState) (stats : TradeStats)
    (dateKey nowIso : String) (nowMs : ℕ) (h50 : 50 ≤ candles.length)
    (hact : config.isActive = true) (e7 e25 e99 : ℚ)
    (h7 : (candles.getLastD dummyCandle).ema7 = some e7)
    (h25 : (candles.getLastD dummyCandle).ema25 = some e25)
    (h99 : (candles.getLastD dummyCandle).ema99 = some e99)
    (hdir : pos.direction ≠ Direction.FLAT)
    (hmulti : config.useMultiTPSL = true)
    (htrail : config.useTrailingStop = false)
    (hsigL : exitLongReason config (candles.getLastD dummyCandle)
      (candles.dropLast.getLastD dummyCandle) e7 e25 e99 = "")
    (hsigS : exitShortReason config (candles.getLastD dummyCandle)
      (candles.dropLast.getLastD dummyCandle) e7 e25 e99 = "") :
    let last := candles.getLastD dummyCandle
    let stats1 := resetStats stats dateKey
    let isLong := decide (pos.direction = Direction.LONG)
    let sTP := specTPPass isLong pos.entryPrice last.high last.low
      pos.initialQuantity config.tpLevels 0 pos.remainingQuantity
      pos.tpLevelsHit
    let sSL := specSLPass isLong pos.entryPrice last.high last.low
      pos.initialQuantity config.slLevels 0 sTP.2.1 pos.slLevelsHit
    (evaluateStrategy candles config pos stats dateKey nowIso nowMs).actions
      = sTP.1.map (tpPartialPayload config nowIso last isLong
          pos.direction) ++
        sSL.1.map (slPartialPayload config nowIso last isLong
          pos.direction) ∧
    (eps < sSL.2.1 →
      (evaluateStrategy candles config pos stats dateKey nowIso
        nowMs).newPositionState =
        { pos with
            remainingQuantity := sSL.2.1
            tpLevelsHit := sTP.2.2
            slLevelsHit := sSL.2.2 } ∧
      (evaluateStrategy candles config pos stats dateKey nowIso
        nowMs).newTradeStats = stats1) ∧
    (sSL.2.1 ≤ eps →
      (evaluateStrategy candles config pos stats dateKey nowIso
        nowMs).newPositionState = emptyPos ∧
      (evaluateStrategy candles config pos stats dateKey nowIso
        nowMs).newTradeStats =
        ⟨stats1.dailyTradeCount + 1, stats1.lastTradeDate⟩) := by
  intro last stats1 isLong sTP sSL
  have hne : ¬(candles.length < 50 ∨ ¬config.isActive) := by
    simp [hact]; omega
  have hcas : cascadeCloseReason config last isLong
      (exitLongReason config last (candles.dropLast.getLastD dummyCandle)
        e7 e25 e99)
      (exitShortReason config last (candles.dropLast.getLastD dummyCandle)
        e7 e25 e99) pos = (pos, "") := by
    unfold cascadeCloseReason
    rw [hsigL, hsigS]
    simp [hmulti, htrail]
  have hm : multiTPSL config last nowIso isLong pos.entryPrice pos =
      ({ pos with
           remainingQuantity := sSL.2.1
           tpLevelsHit := sTP.2.2
           slLevelsHit := sSL.2.2 },
       sTP.1.map (tpPartialPayload config nowIso last isLong
         pos.direction) ++
       sSL.1.map (slPartialPayload config nowIso last isLong
         pos.direction)) := by
    unfold multiTPSL
    rw [tpLoop_eq_spec, slLoop_eq_spec]
    simp
  have hprep : exitPrep config last nowIso
      (exitLongReason config last (candles.dropLast.getLastD dummyCandle)
        e7 e25 e99)
      (exitShortReason config last (candles.dropLast.getLastD dummyCandle)
        e7 e25 e99) pos =
      ({ pos with
           remainingQuantity := sSL.2.1
           tpLevelsHit := sTP.2.2
           slLevelsHit := sSL.2.2 },
       (if sSL.2.1 ≤ eps then "全部止盈/止损完成" else ""),
       sTP.1.map (tpPartialPayload config nowIso last isLong
         pos.direction) ++
       sSL.1.map (slPartialPayload config nowIso last isLong
         pos.direction)) := by
    unfold exitPrep
    dsimp only []
    rw [hcas]
    rw [if_pos ⟨hmulti, by simp [htrail], rfl⟩]
    rw [hm]
    simp
  have hstep : evaluateStrategy candles config pos stats dateKey nowIso
      nowMs =
      ⟨(if sSL.2.1 ≤ eps then emptyPos
        else { pos with
                 remainingQuantity := sSL.2.1
                 tpLevelsHit := sTP.2.2
                 slLevelsHit := sSL.2.2 }),
       (if sSL.2.1 ≤ eps then ⟨stats1.dailyTradeCount + 1,
          stats1.lastTradeDate⟩ else stats1),
       sTP.1.map (tpPartialPayload config nowIso last isLong
         pos.direction) ++
       sSL.1.map (slPartialPayload config nowIso last isLong
         pos.direction)⟩ := by
    unfold evaluateStrategy
    rw [if_neg hne]
    simp only [h7, h25, h99]
    rw [if_pos hdir]
    unfold exitSection
    dsimp only []
    rw [hprep]
    by_cases hrem : sSL.2.1 ≤ eps
    · simp only [if_pos hrem]
      rw [if_pos (show ("全部止盈/止损完成" : String) ≠ "" by decide)]
      rw [fullCloseExec_eq]
      dsimp only []
      rw [if_pos rfl]
      have hq : ¬ eps < sSL.2.1 := not_lt.mpr hrem
      have hs : ("全部止盈/止损完成" : String) ≠ "" := by decide
      rw [hsigL, hsigS]
      simp [hq, hs]
    · simp only [if_neg hrem]
      rw [if_neg (show ¬(("" : String) ≠ "") by simp)]
      dsimp only []
      rw [if_neg (show ¬(false = true) by simp)]
      apply entrySection_not_flat
      exact hdir
  rw [hstep]
  refine ⟨rfl, ?_, ?_⟩
  · intro hrem
    rw [if_neg (not_le.mpr hrem), if_neg (not_le.mpr hrem)]
    exact ⟨rfl, rfl⟩
  · intro hrem
    rw [if_pos hrem, if_pos hrem]
    exact ⟨rfl, rfl⟩

/-- C3 witness: spec scenario 3 — a short at 200 with two active 50% TP
levels and a candle low of 196 emits exactly the two buy/short partials of
quantity 2, flattens the position through the all-levels cleanup without a
third order, and increments the daily count. -/
theorem C3_witness :
    (evaluateStrategy (List.replicate 50 exCandleMulti) exCfgMulti
      exPosShort exStats "2026-01-01" "t" 0).actions.map
        (fun a => (a.action, a.position, a.tp_level, a.execution_quantity))
      = [("buy", "short", "止盈1触发", 2),
         ("buy", "short", "止盈2触发", 2)] ∧
    (evaluateStrategy (List.replicate 50 exCandleMulti) exCfgMulti
      exPosShort exStats "2026-01-01" "t" 0).newPositionState = emptyPos ∧
    (evaluateStrategy (List.replicate 50 exCandleMulti) exCfgMulti
      exPosShort exStats "2026-01-01" "t" 0).newTradeStats.dailyTradeCount
      = 1 := by
  have h := C3_multi_level_ladder (List.replicate 50 exCandleMulti)
    exCfgMulti exPosShort exStats "2026-01-01" "t" 0 (by decide) (by decide)
    1 1 1 (by decide) (by decide) (by decide) (by decide) (by decide)
    (by decide) (by decide) (by decide)
  refine ⟨?_, ?_, ?_⟩
  · rw [h.1]
    decide
  · exact (h.2.2 (by decide)).1
  · rw [(h.2.2 (by decide)).2]
    decide

/-- The take-profit pass keeps the remaining quantity within [0, rem]. -/
theorem specTPPass_rem_bounds (isLong : Bool) (entry hi lo initQty : ℚ)
    (hinit : 0 ≤ initQty) :
    ∀ (levels : List TpLevel) (idx : ℕ) (rem : ℚ) (hits : List Bool),
    0 ≤ rem → (∀ lv ∈ levels, 0 ≤ lv.qtyPct) →
    0 ≤ (specTPPass isLong entry hi lo initQty levels idx rem hits).2.1 ∧
    (specTPPass isLong entry hi lo initQty levels idx rem hits).2.1 ≤ rem := by
  intro levels
  induction levels with
  | nil =>
    intro idx rem hits hrem _
    exact ⟨hrem, le_refl rem⟩
  | cons lv rest ih =>
    intro idx rem hits hrem hq
    simp only [specTPPass]
    by_cases hskip : ¬lv.active = true ∨ getHit hits idx = true ∨ rem ≤ eps
    · rw [if_pos hskip]
      exact ih (idx + 1) rem hits hrem (fun l hl => hq l (by simp [hl]))
    · rw [if_neg hskip]
      by_cases hhit : (if isLong = true then
          (if isLong = true then entry * (1 + lv.pct / 100)
           else entry * (1 - lv.pct / 100)) ≤ hi
        else lo ≤ (if isLong = true then entry * (1 + lv.pct / 100)
           else entry * (1 - lv.pct / 100)))
      · rw [if_pos hhit]
        have hle : min (initQty * (lv.qtyPct / 100)) rem ≤ rem :=
          min_le_right _ _
        have h0 : (0:ℚ) ≤ rem - min (initQty * (lv.qtyPct / 100)) rem :=
          sub_nonneg.mpr hle
        have hr := ih (idx + 1) (rem - min (initQty * (lv.qtyPct / 100)) rem)
          (setHit hits idx) h0 (fun l hl => hq l (by simp [hl]))
        have hq0 : 0 ≤ min (initQty * (lv.qtyPct / 100)) rem :=
          le_min (mul_nonneg hinit (div_nonneg (hq lv (by simp)) (by norm_num)))
            hrem
        exact ⟨hr.1, le_trans hr.2 (by linarith)⟩
      · rw [if_neg hhit]
        exact ih (idx + 1) rem hits hrem (fun l hl => hq l (by simp [hl]))

/-- The stop-loss pass keeps the remaining quantity within [0, rem]. -/
theorem specSLPass_rem_bounds (isLong : Bool) (entry hi lo initQty : ℚ)
    (hinit : 0 ≤ initQty) :
    ∀ (levels : List TpLevel) (idx : ℕ) (rem : ℚ) (hits : List Bool),
    0 ≤ rem → (∀ lv ∈ levels, 0 ≤ lv.qtyPct) →
    0 ≤ (specSLPass isLong entry hi lo initQty levels idx rem hits).2.1 ∧
    (specSLPass isLong entry hi lo initQty levels idx rem hits).2.1 ≤ rem := by
  intro levels
  induction levels with
  | nil =>
    intro idx rem hits hrem _
    exact ⟨hrem, le_refl rem⟩
  | cons lv rest ih =>
    intro idx rem hits hrem hq
    simp only [specSLPass]
    by_cases hskip : ¬lv.active = true ∨ getHit hits idx = true ∨ rem ≤ eps
    · rw [if_pos hskip]
      exact ih (idx + 1) rem hits hrem (fun l hl => hq l (by simp [hl]))
    · rw [if_neg hskip]
      by_cases hhit : (if isLong = true then
          lo ≤ (if isLong = true then entry * (1 - lv.pct / 100)
           else entry * (1 + lv.pct / 100))
        else (if isLong = true then entry * (1 - lv.pct / 100)
           else entry * (1 + lv.pct / 100)) ≤ hi)
      · rw [if_pos hhit]
        have hle : min (initQty * (lv.qtyPct / 100)) rem ≤ rem :=
          min_le_right _ _
        have h0 : (0:ℚ) ≤ rem - min (initQty * (lv.qtyPct / 100)) rem :=
          sub_nonneg.mpr hle
        have hr := ih (idx + 1) (rem - min (initQty * (lv.qtyPct / 100)) rem)
          (setHit hits idx) h0 (fun l hl => hq l (by simp [hl]))
        have hq0 : 0 ≤ min (initQty * (lv.qtyPct / 100)) rem :=
          le_min (mul_nonneg hinit (div_nonneg (hq lv (by simp)) (by norm_num)))
            hrem
        exact ⟨hr.1, le_trans hr.2 (by linarith)⟩
      · rw [if_neg hhit]
        exact ih (idx + 1) rem hits hrem (fun l hl => hq l (by simp [hl]))

/-- Steps 1–3 of the exit cascade leave every position field unchanged
except that the tracked extremum can only widen. -/
theorem cascadeCloseReason_fst (config : StrategyConfig) (last : Candle)
    (isLong : Bool) (exitL exitS : String) (pos : PositionState) :
    (cascadeCloseReason config last isLong exitL exitS pos).1.direction =
      pos.direction ∧
    (cascadeCloseReason config last isLong exitL exitS
      pos).1.initialQuantity = pos.initialQuantity ∧
    (cascadeCloseReason config last isLong exitL exitS
      pos).1.remainingQuantity = pos.remainingQuantity ∧
    (cascadeCloseReason config last isLong exitL exitS pos).1.entryPrice =
      pos.entryPrice ∧
    (cascadeCloseReason config last isLong exitL exitS pos).1.tpLevelsHit =
      pos.tpLevelsHit ∧
    (cascadeCloseReason config last isLong exitL exitS pos).1.slLevelsHit =
      pos.slLevelsHit ∧
    pos.highestPrice ≤
      (cascadeCloseReason config last isLong exitL exitS
        pos).1.highestPrice ∧
    (cascadeCloseReason config last isLong exitL exitS pos).1.lowestPrice ≤
      pos.lowestPrice := by
  unfold cascadeCloseReason
  dsimp only []
  repeat' split
  all_goals simp [le_max_left, min_le_left]

/-- A freshly opened non-FLAT position satisfies the invariant when the
quantity is nonnegative and the candle is well-formed. -/
theorem openPos_wf (dir : Direction) (qty : ℚ) (last : Candle) (nowMs : ℕ)
    (hdir : dir ≠ Direction.FLAT) (hq : 0 ≤ qty) (hc : WFCandle last) :
    WellFormedPos (openPos dir qty last nowMs) := by
  cases dir with
  | FLAT => exact absurd rfl hdir
  | LONG =>
    refine ⟨?_, hq, le_refl qty, ?_, ?_⟩
    · intro h
      cases h
    · intro _
      simpa [openPos] using hc.2.2.2.2
    · intro h
      cases h
  | SHORT =>
    refine ⟨?_, hq, le_refl qty, ?_, ?_⟩
    · intro h
      cases h
    · intro h
      cases h
    · intro _
      simpa [openPos] using hc.2.2.1

/-- The FLAT reset state satisfies the invariant. -/
theorem emptyPos_wf : WellFormedPos emptyPos := by decide

/-- The runner's initial position state satisfies the invariant. -/
theorem INITIAL_POS_STATE_wf : WellFormedPos INITIAL_POS_STATE := by decide

/-- Updating only the pending-reversion fields preserves the invariant. -/
theorem pendingUpdate_wf (pos : PositionState) (pr : Option Direction)
    (s : String) (hwf : WellFormedPos pos) :
    WellFormedPos { pos with pendingReversion := pr
                             pendingReversionReason := s } := hwf

/-- The multi-level ladder changes only the remaining quantity and the
level-hit marks; under nonnegative inputs the remainder stays in
[0, remainingQuantity]. -/
theorem multiTPSL_fst_fields (config : StrategyConfig) (last : Candle)
    (nowIso : String) (isLong : Bool) (entry : ℚ) (pos : PositionState) :
    (multiTPSL config last nowIso isLong entry pos).1.direction =
      pos.direction ∧
    (multiTPSL config last nowIso isLong entry pos).1.initialQuantity =
      pos.initialQuantity ∧
    (multiTPSL config last nowIso isLong entry pos).1.entryPrice =
      pos.entryPrice ∧
    (multiTPSL config last nowIso isLong entry pos).1.highestPrice =
      pos.highestPrice ∧
    (multiTPSL config last nowIso isLong entry pos).1.lowestPrice =
      pos.lowestPrice ∧
    (0 ≤ pos.initialQuantity → 0 ≤ pos.remainingQuantity →
      (∀ lv ∈ config.tpLevels, 0 ≤ lv.qtyPct) →
      (∀ lv ∈ config.slLevels, 0 ≤ lv.qtyPct) →
      0 ≤ (multiTPSL config last nowIso isLong entry
        pos).1.remainingQuantity ∧
      (multiTPSL config last nowIso isLong entry pos).1.remainingQuantity ≤
        pos.remainingQuantity) := by
  unfold multiTPSL
  rw [tpLoop_eq_spec, slLoop_eq_spec]
  dsimp only []
  refine ⟨rfl, rfl, rfl, rfl, rfl, ?_⟩
  intro h1 h2 h3 h4
  have htp := specTPPass_rem_bounds isLong entry last.high last.low
    pos.initialQuantity h1 config.tpLevels 0 pos.remainingQuantity
    pos.tpLevelsHit h2 h3
  have hsl := specSLPass_rem_bounds isLong entry last.high last.low
    pos.initialQuantity h1 config.slLevels 0
    (specTPPass isLong entry last.high last.low pos.initialQuantity
      config.tpLevels 0 pos.remainingQuantity pos.tpLevelsHit).2.1
    pos.slLevelsHit htp.1 h4
  exact ⟨hsl.1, le_trans hsl.2 htp.2⟩

/-- The whole pre-close block preserves the identifying fields, widens the
extremum monotonically and keeps the remainder in [0, remainingQuantity]
under nonnegative inputs. -/
theorem exitPrep_fst (config : StrategyConfig) (last : Candle)
    (nowIso : String) (exitL exitS : String) (pos : PositionState) :
    (exitPrep config last nowIso exitL exitS pos).1.direction =
      pos.direction ∧
    (exitPrep config last nowIso exitL exitS pos).1.initialQuantity =
      pos.initialQuantity ∧
    (exitPrep config last nowIso exitL exitS pos).1.entryPrice =
      pos.entryPrice ∧
    pos.highestPrice ≤
      (exitPrep config last nowIso exitL exitS pos).1.highestPrice ∧
    (exitPrep config last nowIso exitL exitS pos).1.lowestPrice ≤
      pos.lowestPrice ∧
    (0 ≤ pos.initialQuantity → 0 ≤ pos.remainingQuantity →
      (∀ lv ∈ config.tpLevels, 0 ≤ lv.qtyPct) →
      (∀ lv ∈ config.slLevels, 0 ≤ lv.qtyPct) →
      0 ≤ (exitPrep config last nowIso exitL exitS
        pos).1.remainingQuantity ∧
      (exitPrep config last nowIso exitL exitS pos).1.remainingQuantity ≤
        pos.remainingQuantity) := by
  obtain ⟨hd, hi, hr, he, htp, hsl, hh, hl⟩ :=
    cascadeCloseReason_fst config last
      (decide (pos.direction = Direction.LONG)) exitL exitS pos
  unfold exitPrep
  dsimp only []
  split
  · obtain ⟨md, mi, me, mh, ml, mb⟩ :=
      multiTPSL_fst_fields config last nowIso
        (decide (pos.direction = Direction.LONG)) pos.entryPrice
        (cascadeCloseReason config last
          (decide (pos.direction = Direction.LONG)) exitL exitS pos).1
    refine ⟨md.trans hd, mi.trans hi, me.trans he, ?_, ?_, ?_⟩
    · rw [mh]
      exact hh
    · rw [ml]
      exact hl
    · intro h1 h2 h3 h4
      have hb := mb (by rw [hi]; exact h1) (by rw [hr]; exact h2) h3 h4
      rw [hr] at hb
      exact hb
  · refine ⟨hd, hi, he, hh, hl, ?_⟩
    intro _ h2 _ _
    rw [hr]
    exact ⟨h2, le_refl _⟩

/-- The exit section preserves the position invariant for a non-FLAT
position under nonnegative configuration inputs and a well-formed candle. -/
theorem exitSection_wf (config : StrategyConfig) (last : Candle)
    (nowIso : String) (nowMs : ℕ) (exitL exitS : String) (canOpen : Bool)
    (pos : PositionState) (stats : TradeStats)
    (hwf : WellFormedPos pos) (hdir : pos.direction ≠ Direction.FLAT)
    (hc : WFCandle last) (hta : 0 ≤ config.tradeAmount)
    (htp : ∀ lv ∈ config.tpLevels, 0 ≤ lv.qtyPct)
    (hsl : ∀ lv ∈ config.slLevels, 0 ≤ lv.qtyPct) :
    WellFormedPos (exitSection config last nowIso nowMs exitL exitS canOpen
      pos stats).pos := by
  obtain ⟨hd, hi, he, hh, hl, hb⟩ :=
    exitPrep_fst config last nowIso exitL exitS pos
  have hbounds := hb (le_trans hwf.2.1 hwf.2.2.1) hwf.2.1 htp hsl
  unfold exitSection
  dsimp only []
  split
  · rw [fullCloseExec_eq]
    dsimp only []
    split_ifs
    · exact openPos_wf _ _ _ _ (by decide)
        (div_nonneg hta (le_trans hc.1 hc.2.2.1)) hc
    · exact openPos_wf _ _ _ _ (by decide)
        (div_nonneg hta (le_trans hc.1 hc.2.2.1)) hc
    · exact emptyPos_wf
  · refine ⟨?_, hbounds.1, ?_, ?_, ?_⟩
    · intro hfl
      rw [hd] at hfl
      exact absurd hfl hdir
    · exact le_trans hbounds.2 (le_of_le_of_eq hwf.2.2.1 hi.symm)
    · intro hL
      rw [hd] at hL
      rw [he]
      exact le_trans (hwf.2.2.2.1 hL) hh
    · intro hS
      rw [hd] at hS
      rw [he]
      exact le_trans hl (hwf.2.2.2.2 hS)

/-- The entry section preserves the position invariant under a nonnegative
trade amount and a well-formed candle. -/
theorem entrySection_wf (config : StrategyConfig) (last : Candle)
    (nowIso : String) (nowMs : ℕ) (e7 : ℚ) (longR shortR : String)
    (canOpen : Bool) (pos : PositionState) (stats : TradeStats)
    (actions : List WebhookPayload) (hwf : WellFormedPos pos)
    (hc : WFCandle last) (hta : 0 ≤ config.tradeAmount) :
    WellFormedPos (entrySection config last nowIso nowMs e7 longR shortR
      canOpen pos stats actions).newPositionState := by
  have hqty : 0 ≤ config.tradeAmount / last.close :=
    div_nonneg hta (le_trans hc.1 hc.2.2.1)
  unfold entrySection
  dsimp only []
  split
  · split
    · split
      · split
        · next htrig =>
          apply openPos_wf
          · rcases htrig with ⟨h1, _⟩ | ⟨h1, _⟩ <;> rw [h1] <;> decide
          · exact hqty
          · exact hc
        · split_ifs
          · exact pendingUpdate_wf _ _ _ hwf
          · exact pendingUpdate_wf _ _ _ hwf
          · exact hwf
      · split_ifs
        · exact pendingUpdate_wf _ _ _ hwf
        · exact pendingUpdate_wf _ _ _ hwf
        · exact hwf
    · split_ifs
      · exact openPos_wf _ _ _ _ (by decide) hqty hc
      · exact openPos_wf _ _ _ _ (by decide) hqty hc
      · exact hwf
  · exact hwf

/-- The evaluation core preserves the position invariant under well-formed
candles, a nonnegative trade amount and nonnegative ladder quantities. -/
theorem evaluateStrategy_wf (candles : List Candle)
    (config : StrategyConfig) (pos : PositionState) (stats : TradeStats)
    (dateKey nowIso : String) (nowMs : ℕ) (hwf : WellFormedPos pos)
    (hcand : ∀ c ∈ candles, WFCandle c) (hta : 0 ≤ config.tradeAmount)
    (htp : ∀ lv ∈ config.tpLevels, 0 ≤ lv.qtyPct)
    (hsl : ∀ lv ∈ config.slLevels, 0 ≤ lv.qtyPct) :
    WellFormedPos (evaluateStrategy candles config pos stats dateKey nowIso
      nowMs).newPositionState := by
  unfold evaluateStrategy
  dsimp only []
  split
  · exact hwf
  · next hgate =>
    have hne : candles ≠ [] := by
      intro h0
      subst h0
      exact hgate (Or.inl (by simp))
    have hcl : WFCandle (candles.getLastD dummyCandle) := by
      have h1 : candles.getLastD dummyCandle = candles.getLast hne := by
        rw [List.getLastD_eq_getLast?, List.getLast?_eq_getLast candles hne]
        rfl
      rw [h1]
      exact hcand _ (List.getLast_mem hne)
    split
    · split
      · next hd =>
        split
        · exact exitSection_wf _ _ _ _ _ _ _ _ _ hwf hd hcl hta htp hsl
        · exact entrySection_wf _ _ _ _ _ _ _ _ _ _ _
            (exitSection_wf _ _ _ _ _ _ _ _ _ hwf hd hcl hta htp hsl)
            hcl hta
      · exact entrySection_wf _ _ _ _ _ _ _ _ _ _ _ hwf hcl hta
    · exact hwf

/-- handleManualOrder preserves the position invariant under a nonnegative
last price and trade amount. -/
theorem handleManualOrder_wf (rt : StrategyRuntime) (type : Direction)
    (nowIso : String) (nowMs : ℕ) (hwf : WellFormedPos rt.positionState)
    (hp : 0 ≤ rt.lastPrice) (hta : 0 ≤ rt.config.tradeAmount) :
    WellFormedPos (handleManualOrder rt type nowIso
      nowMs).1.positionState := by
  unfold handleManualOrder
  dsimp only []
  split
  · exact hwf
  · split
    · exact INITIAL_POS_STATE_wf
    · next hty =>
      have hq : 0 ≤ (if type = Direction.FLAT then
          rt.positionState.remainingQuantity
          else rt.config.tradeAmount / rt.lastPrice) := by
        rw [if_neg hty]
        exact div_nonneg hta hp
      cases type with
      | FLAT => exact absurd rfl hty
      | LONG =>
        refine ⟨?_, hq, le_refl _, ?_, ?_⟩
        · intro hx
          cases hx
        · intro _
          simp
        · intro hx
          cases hx
      | SHORT =>
        refine ⟨?_, hq, le_refl _, ?_, ?_⟩
        · intro hx
          cases hx
        · intro hx
          cases hx
        · intro _
          simp

/-- initializeManualPosition preserves the position invariant under a
nonnegative takeover quantity. -/
theorem initializeManualPosition_wf (config : StrategyConfig)
    (rt : StrategyRuntime) (nowIso : String) (nowMs : ℕ)
    (hq : 0 ≤ config.takeoverQuantity) :
    WellFormedPos (initializeManualPosition config rt nowIso
      nowMs).1.positionState := by
  unfold initializeManualPosition
  dsimp only []
  split
  · exact INITIAL_POS_STATE_wf
  · next hd =>
    cases hdir : config.takeoverDirection with
    | FLAT => exact absurd hdir hd
    | LONG =>
      refine ⟨?_, hq, le_refl _, ?_, ?_⟩
      · intro hx
        cases hx
      · intro _
        simp
      · intro hx
        cases hx
    | SHORT =>
      refine ⟨?_, hq, le_refl _, ?_, ?_⟩
      · intro hx
        cases hx
      · intro hx
        cases hx
      · intro _
        simp

/-- C8: the PositionState invariant (FLAT implies zero quantities/prices
and empty hit arrays; 0 ≤ remainingQuantity ≤ initialQuantity; the tracked
extremum brackets the entry price on the open side) is preserved by
evaluateStrategy, handleManualOrder and initializeManualPosition — under
the claim's hypotheses strengthened with full candle well-formedness
(nonnegative prices with low ≤ open, close ≤ high and low ≤ close,
open ≤ high) and nonnegativity of the configured trade amount, ladder
level quantity percentages, the runtime's last price and the takeover
quantity. -/
theorem C8_position_invariant_amended (candles : List Candle)
    (config : StrategyConfig) (pos : PositionState) (stats : TradeStats)
    (dateKey nowIso : String) (nowMs : ℕ) (rt : StrategyRuntime)
    (type : Direction) (hwf : WellFormedPos pos)
    (hcand : ∀ c ∈ candles, WFCandle c) (hta : 0 ≤ config.tradeAmount)
    (htp : ∀ lv ∈ config.tpLevels, 0 ≤ lv.qtyPct)
    (hsl : ∀ lv ∈ config.slLevels, 0 ≤ lv.qtyPct)
    (hrwf : WellFormedPos rt.positionState) (hrp : 0 ≤ rt.lastPrice)
    (hrta : 0 ≤ rt.config.tradeAmount)
    (hq : 0 ≤ config.takeoverQuantity) :
    WellFormedPos (evaluateStrategy candles config pos stats dateKey nowIso
      nowMs).newPositionState ∧
    WellFormedPos (handleManualOrder rt type nowIso
      nowMs).1.positionState ∧
    WellFormedPos (initializeManualPosition config rt nowIso
      nowMs).1.positionState :=
  ⟨evaluateStrategy_wf candles config pos stats dateKey nowIso nowMs hwf
      hcand hta htp hsl,
    handleManualOrder_wf rt type nowIso nowMs hrwf hrp hrta,
    initializeManualPosition_wf config rt nowIso nowMs hq⟩

/-- C8 counterexample: the claim as stated has no nonnegativity hypothesis
on the configured trade amount; a manual LONG at last price 1 with
tradeAmount −100 starts from a well-formed state and a nonnegative price
yet yields remainingQuantity = −100 < 0, violating the invariant. -/
theorem C8_counterexample :
    WellFormedPos exRtNegAmount.positionState ∧
    0 ≤ exRtNegAmount.lastPrice ∧
    ¬WellFormedPos (handleManualOrder exRtNegAmount Direction.LONG "t"
      0).1.positionState := by
  decide

/-- C8 witness: the amended preservation theorem applied at concrete
inputs. -/
theorem C8_witness :
    WellFormedPos (evaluateStrategy [] {} INITIAL_POS_STATE exStats "d" "t"
      0).newPositionState ∧
    WellFormedPos (handleManualOrder exRtBtc Direction.LONG "t"
      0).1.positionState ∧
    WellFormedPos (initializeManualPosition {} exRtBtc "t"
      0).1.positionState :=
  C8_position_invariant_amended [] {} INITIAL_POS_STATE exStats "d" "t" 0
    exRtBtc Direction.LONG (by decide) (by decide) (by decide) (by decide)
    (by decide) (by decide) (by decide) (by decide) (by decide)

end TradingMonitor
